import Mathlib

/-!
Verification development for the Slice & Metric Ingestion Engine
(`backend/app/services/data_loader.py`).

The loader is embedded shallowly:

* raw spreadsheet cells are a tagged union (missing / text / floating value),
  floating values distinguish finite rationals from NaN and the infinities;
* the analytic database is a record whose player store and statistics store are
  keyed maps — the `ON CONFLICT (…)` clauses of the source presuppose unique
  indexes on exactly those key tuples, so a keyed map is the faithful state
  model (null birth years are treated as equal keys);
* every SQL statement of the loader becomes one Lean function on that record;
* `DataLoader` methods compose those functions; Python-level error behaviour
  (KeyError / TypeError / ValueError) is an `Except`;
* a second, instrumented semantics threads an explicit session with a
  committed snapshot, a working state, and a fault oracle, used for the
  transactional claims (rollback, which statements can fail a batch).

Timestamps are a logical clock bumped at each slice write; `datetime.now()`
is an explicit `year` parameter.
-/

namespace DataLoader

/-- A floating-point value as pandas hands it over: a finite value (modeled
exactly as a rational) or one of the non-finite IEEE values. -/
inductive FloatVal where
  | fin (q : ℚ)
  | nan
  | inf
  | ninf
deriving DecidableEq

/-- A raw spreadsheet cell: absent/NaN (`missing`), a text cell, or a numeric
cell. -/
inductive Cell where
  | missing
  | str (s : String)
  | num (v : FloatVal)
deriving DecidableEq

/-- `pd.isna` on a cell: true for an absent cell and for a NaN numeric. -/
def isnaCell : Cell → Bool
  | .missing => true
  | .num .nan => true
  | _ => false

/-- One spreadsheet row: a mapping from column header to raw cell, in column
order.  Column labels from `pd.read_excel` are unique. -/
structure Row where
  cells : List (String × Cell)
deriving DecidableEq

/-- `col in row` / `row[col]` / `row.get(col)`: first cell under the label. -/
def Row.find (r : Row) (c : String) : Option Cell :=
  (r.cells.find? (fun p => p.1 = c)).map (fun p => p.2)

/-- SQL `COALESCE` on two nullable values: the first non-null one. -/
def coal {α : Type} (a b : Option α) : Option α :=
  match a with
  | some x => some x
  | none => b

/-- Digits of a numeral to its value. -/
def digitsToNat (l : List Char) : Nat :=
  l.foldl (fun n c => n * 10 + (c.toNat - 48)) 0

/-- All characters are decimal digits. -/
def allDigits (l : List Char) : Bool :=
  l.all (fun c => c.isDigit)

/-- Drop leading whitespace characters. -/
def dropWs : List Char → List Char
  | [] => []
  | c :: t => if c.isWhitespace then dropWs t else c :: t

/-- Strip surrounding whitespace (Python `str.strip`, and the stripping
`int()`/`float()` perform). -/
def trimChars (l : List Char) : List Char :=
  (dropWs (dropWs l).reverse).reverse

/-- Python `str.strip()` on a string. -/
def pyStrip (s : String) : String :=
  ⟨trimChars s.data⟩

/-- Python `int(s)` on a string: optional sign followed by digits (surrounding
whitespace stripped); anything else raises, modeled as `none`. -/
def pyParseInt (s : String) : Option Int :=
  match trimChars s.data with
  | '-' :: t => if t ≠ [] ∧ allDigits t then some (-(digitsToNat t : Int)) else none
  | '+' :: t => if t ≠ [] ∧ allDigits t then some ((digitsToNat t : Int)) else none
  | t => if t ≠ [] ∧ allDigits t then some ((digitsToNat t : Int)) else none

/-- Split a character list at every decimal point. -/
def splitDot : List Char → List (List Char)
  | [] => [[]]
  | c :: t =>
    match splitDot t with
    | [] => [[]]
    | h :: r => if c = '.' then [] :: h :: r else (c :: h) :: r

/-- Unsigned decimal literal: digits with at most one decimal point and at
least one digit overall. -/
def parseUnsignedDec (l : List Char) : Option ℚ :=
  match splitDot l with
  | [a] =>
    if a.length > 0 ∧ allDigits a then some ((digitsToNat a : Int) : ℚ)
    else none
  | [a, b] =>
    if a.length + b.length > 0 ∧ allDigits a ∧ allDigits b then
      some (mkRat (digitsToNat a * 10 ^ b.length + digitsToNat b) (10 ^ b.length))
    else none
  | _ => none

/-- Python `float(s)` on the plain decimal literals this data path carries:
optional sign, digits, at most one decimal point (whitespace stripped).
`none` models a `ValueError`.  Exponent forms and the textual non-finite
literals are outside the modeled grammar. -/
def pyParseFloat (s : String) : Option ℚ :=
  match trimChars s.data with
  | '-' :: t => (parseUnsignedDec t).map (fun q => -q)
  | '+' :: t => parseUnsignedDec t
  | t => parseUnsignedDec t

/-- Python `int()` applied to a finite float: truncation toward zero. -/
def ratTrunc (q : ℚ) : Int :=
  Int.tdiv q.num (q.den : Int)

/-- Python `str()` of a raw cell.  Text passes through; an absent/NaN cell
renders as `nan` exactly as `str(float('nan'))` does; other numerics get a
stand-in rendering (never exercised by identity columns in practice). -/
def strOfCell : Cell → String
  | .str s => s
  | .missing => "nan"
  | .num (.fin q) => "num:" ++ toString q
  | .num .nan => "nan"
  | .num .inf => "inf"
  | .num .ninf => "-inf"

/-- The statement labels of the loader's database interactions, used by the
instrumented semantics to attribute failures. -/
inductive DbOp where
  | seasonQ
  | rolloverQ
  | sliceFindQ
  | sliceUpdateQ
  | sliceInsertQ
  | positionQ
  | playerUpsertQ
  | statUpsertQ
  | commitOp
deriving DecidableEq

/-- Python-level exceptions reachable in the loader. -/
inductive PyErr where
  | keyError (col : String)
  | typeError
  | valueError
  | fileError
  | dbError (op : DbOp)
deriving DecidableEq

/-- One row of the `players` table (the natural key lives in the map key). -/
structure PlayerAttrs where
  player_id : Nat
  position_id : Nat
  height : Option Int
  weight : Option Int
  citizenship : Option String
deriving DecidableEq

/-- Natural key of a player: (full_name, birth_year, team_name, tournament_id). -/
abbrev PKey := String × Option Int × String × Nat

/-- Key of a statistics fact: (player_id, slice_id, metric_code). -/
abbrev SKey := Nat × Nat × String

/-- One row of `stat_slices`. -/
structure SliceRow where
  slice_id : Nat
  tournament_id : Nat
  slice_type : String
  period_type : String
  period_value : Option String
  description : String
  uploaded_at : Nat
deriving DecidableEq

/-- The analytic database state touched by the loader. -/
structure DB where
  positions : List (String × Nat)
  tournaments : List (Nat × Option String)
  players : PKey → Option PlayerAttrs
  next_player_id : Nat
  slices : List SliceRow
  next_slice_id : Nat
  stats : SKey → Option ℚ
  clock : Nat

/-- `SELECT position_id FROM positions WHERE code = :code LIMIT 1`. -/
def posLookup (db : DB) (code : String) : Option Nat :=
  (db.positions.find? (fun p => p.1 = code)).map (fun p => p.2)

/-- `INSERT INTO players … ON CONFLICT (full_name, birth_year, team_name,
tournament_id) DO UPDATE SET position_id = EXCLUDED.position_id, height =
COALESCE(EXCLUDED.height, players.height), … RETURNING player_id`. -/
def upsertPlayer (db : DB) (k : PKey) (position_id : Nat) (height weight : Option Int)
    (citizenship : Option String) : Nat × DB :=
  match db.players k with
  | some a =>
    let merged : PlayerAttrs :=
      { player_id := a.player_id, position_id := position_id,
        height := coal height a.height, weight := coal weight a.weight,
        citizenship := coal citizenship a.citizenship }
    (a.player_id,
     { db with players := fun k2 => if k2 = k then some merged else db.players k2 })
  | none =>
    let fresh : PlayerAttrs :=
      { player_id := db.next_player_id, position_id := position_id,
        height := height, weight := weight, citizenship := citizenship }
    (db.next_player_id,
     { db with
         players := fun k2 => if k2 = k then some fresh else db.players k2,
         next_player_id := db.next_player_id + 1 })

/-- `INSERT INTO player_statistics … ON CONFLICT (player_id, slice_id,
metric_code) DO UPDATE SET metric_value = EXCLUDED.metric_value`: store the
value at the key, inserting or overwriting. -/
def upsertStat (db : DB) (player_id slice_id : Nat) (metric_code : String) (v : ℚ) : DB :=
  { db with stats := fun k => if k = (player_id, slice_id, metric_code) then some v
                             else db.stats k }

/-- SQL equality on a nullable column: NULL compares equal to nothing. -/
def sqlEq (a b : Option String) : Bool :=
  match a, b with
  | some x, some y => x = y
  | _, _ => false

/-- WHERE clause of the slice search in `_upsert_slice`. -/
def sliceMatches (tid : Nat) (st pt : String) (pv : Option String) (s : SliceRow) : Bool :=
  s.tournament_id = tid ∧ s.slice_type = st ∧ s.period_type = pt ∧ sqlEq s.period_value pv

/-- `SELECT slice_id FROM stat_slices WHERE …` fetched as a scalar: the first
matching row in insertion order. -/
def sliceFind (db : DB) (tid : Nat) (st pt : String) (pv : Option String) : Option Nat :=
  (db.slices.find? (sliceMatches tid st pt pv)).map (fun s => s.slice_id)

/-- `UPDATE stat_slices SET uploaded_at = CURRENT_TIMESTAMP, description = …
WHERE slice_id = :slice_id`. -/
def sliceUpdate (db : DB) (sid : Nat) (desc : String) : DB :=
  { db with
      slices := db.slices.map (fun s => if s.slice_id = sid then
        { s with uploaded_at := db.clock, description := desc } else s),
      clock := db.clock + 1 }

/-- `INSERT INTO stat_slices (…) VALUES (…) RETURNING slice_id`. -/
def sliceInsert (db : DB) (tid : Nat) (st pt : String) (pv : Option String)
    (desc : String) : Nat × DB :=
  (db.next_slice_id,
   { db with
       slices := db.slices ++
         [{ slice_id := db.next_slice_id, tournament_id := tid, slice_type := st,
            period_type := pt, period_value := pv, description := desc,
            uploaded_at := db.clock }],
       next_slice_id := db.next_slice_id + 1,
       clock := db.clock + 1 })

/-- Python f-string rendering of the nullable period value. -/
def pvRepr : Option String → String
  | some s => s
  | none => "None"

/-- `DataLoader._upsert_slice`: for SEASON without `force_new`, update the
matching slice in place when one exists; otherwise (ROUND, or `force_new`, or
no match) insert a fresh slice. -/
def upsert_slice (db : DB) (tournament_id : Nat) (slice_type period_type : String)
    (period_value : Option String) (force_new : Bool) : DB × Nat × Bool :=
  if period_type = "SEASON" ∧ force_new = false then
    match sliceFind db tournament_id slice_type period_type period_value with
    | some existing_id =>
      (sliceUpdate db existing_id
         (slice_type ++ " " ++ period_type ++ " " ++ pvRepr period_value ++ " (обновлено)"),
       existing_id, false)
    | none =>
      let ins := sliceInsert db tournament_id slice_type period_type period_value
        (slice_type ++ " " ++ period_type ++ " " ++ pvRepr period_value)
      (ins.2, ins.1, true)
  else
    let ins := sliceInsert db tournament_id slice_type period_type period_value
      (slice_type ++ " " ++ period_type ++ " " ++ pvRepr period_value)
    (ins.2, ins.1, true)

/-- `DataLoader._get_tournament_season`: the tournament's configured season;
Python `if not season` makes both NULL and the empty string fall back to the
current calendar year. -/
def get_tournament_season (db : DB) (tournament_id : Nat) (year : Int) : String :=
  match (db.tournaments.find? (fun t => t.1 = tournament_id)).map (fun t => t.2) with
  | some (some s) => if s = "" then toString year else s
  | _ => toString year

/-- `ORDER BY uploaded_at DESC LIMIT 1`: the first row carrying the maximal
logical timestamp. -/
def latestSlice : List SliceRow → Option SliceRow
  | [] => none
  | s :: t =>
    match latestSlice t with
    | none => some s
    | some m => if m.uploaded_at > s.uploaded_at then some m else some s

/-- `DataLoader._check_new_season_needed`: true when the most recently
uploaded SEASON slice for (tournament, slice_type) carries a (truthy) period
value different from the candidate. -/
def check_new_season_needed (db : DB) (tournament_id : Nat) (slice_type : String)
    (new_season : Option String) : Bool :=
  match latestSlice (db.slices.filter (fun s =>
      s.tournament_id = tournament_id ∧ s.slice_type = slice_type ∧
      s.period_type = "SEASON")) with
  | none => false
  | some s =>
    match s.period_value with
    | none => false
    | some es => if es = "" then false else decide (some es ≠ new_season)

/-- The column mapping `METRICS_MAPPING` of the source, in source order:
metric code to Excel column label. -/
def METRICS_MAPPING : List (String × String) := [
  ("index", "Index"),
  ("minutes", "Минут на поле"),
  ("goal_errors", "Голевые ошибки"),
  ("gross_errors", "Грубые ошибки"),
  ("goals", "Голы"),
  ("assists", "Передачи голевые"),
  ("goal_chances", "Голевые моменты"),
  ("goal_chances_success", "Голевые моменты удачные"),
  ("goal_chances_success_pct", "Голевые моменты удачные, %"),
  ("goal_chances_created", "Голевые моменты создал"),
  ("goal_attacks", "Участие в голевых атаках"),
  ("shots", "Удары"),
  ("shots_on_target", "Удары в створ"),
  ("shots_accurate_pct", "Удары точные, %"),
  ("shots_off_target", "Удары мимо"),
  ("shots_blocked", "Удары перехваченные"),
  ("shots_head", "Удары головой"),
  ("shots_woodwork", "Удары в каркас ворот"),
  ("yellow_cards", "Желтые карточки"),
  ("red_cards", "Красные карточки"),
  ("fouls", "Фолы"),
  ("fouls_on_player", "Фолы на игроке"),
  ("passes", "Передачи"),
  ("passes_accurate", "Передачи точные"),
  ("passes_accurate_pct", "Передачи точные, %"),
  ("key_passes", "Передачи ключевые"),
  ("key_passes_accurate", "Передачи ключевые точные"),
  ("key_passes_accurate_pct", "Передачи ключевые точные, %"),
  ("crosses", "Навесы"),
  ("crosses_accurate", "Навесы точные"),
  ("crosses_accurate_pct", "Навесы точные, %"),
  ("progressive_passes", "Передачи прогрессивные"),
  ("progressive_passes_accurate", "Передачи прогрессивные точные"),
  ("progressive_passes_accurate_pct", "Передачи прогрессивные точные, %"),
  ("progressive_passes_clean", "Передачи прогрессивные чистые"),
  ("long_passes", "Передачи длинные"),
  ("long_passes_accurate", "Передачи длинные точные"),
  ("long_passes_accurate_pct", "Передачи длинные точные, %"),
  ("super_long_passes", "Передачи сверхдлинные"),
  ("super_long_passes_accurate", "Передачи сверхдлинные точные"),
  ("super_long_passes_accurate_pct", "Передачи сверхдлинные точные, %"),
  ("passes_to_final_third", "Передачи вперед в финальную треть"),
  ("passes_to_final_third_accurate", "Передачи вперед в финальную треть точные"),
  ("passes_to_final_third_accurate_pct", "Передачи вперед в финальную треть точные, %"),
  ("passes_to_penalty_area", "Передачи в штрафную"),
  ("passes_to_penalty_area_accurate", "Передачи в штрафную точные"),
  ("passes_to_penalty_area_accurate_pct", "Передачи в штрафную точные, %"),
  ("passes_for_shot", "Передачи под удар"),
  ("duels", "Единоборства"),
  ("duels_success", "Единоборства удачные"),
  ("duels_success_pct", "Единоборства удачные, %"),
  ("duels_unsuccessful", "Единоборства неудачные"),
  ("defensive_duels", "Единоборства в обороне"),
  ("defensive_duels_success", "Единоборства в обороне удачные"),
  ("defensive_duels_success_pct", "Единоборства в обороне удачные, %"),
  ("offensive_duels", "Единоборства в атаке"),
  ("offensive_duels_success", "Единоборства в атаке удачные"),
  ("offensive_duels_success_pct", "Единоборства в атаке удачные, %"),
  ("aerial_duels", "Единоборства вверху"),
  ("aerial_duels_success", "Единоборства вверху удачные"),
  ("aerial_duels_success_pct", "Единоборства вверху удачные, %"),
  ("dribbles", "Обводки"),
  ("dribbles_success", "Обводки удачные"),
  ("dribbles_success_pct", "Обводки удачные, %"),
  ("dribbles_unsuccessful", "Обводки неудачные"),
  ("dribbles_final_third", "Обводки в финальной трети"),
  ("dribbles_final_third_success", "Обводки в финальной трети удачные"),
  ("dribbles_final_third_success_pct", "Обводки в финальной трети удачные, %"),
  ("tackles", "Отборы"),
  ("tackles_success", "Отборы удачные"),
  ("tackles_success_pct", "Отборы удачные, %"),
  ("interceptions", "Перехваты"),
  ("recoveries", "Подборы"),
  ("matches_played", "Матчей сыграно"),
  ("starting_lineup", "Появление в стартовом составе"),
  ("substituted_off", "Был заменен"),
  ("substituted_on", "Вышел на замену"),
  ("ttd_total", "ТТД"),
  ("ttd_success", "ТТД удачные"),
  ("ttd_success_pct", "ТТД удачные, %"),
  ("ttd_unsuccessful", "ТТД неудачные"),
  ("ttd_in_opponent_box", "ТТД в штрафной соперника"),
  ("ttd_in_opponent_box_success", "ТТД в штрафной соперника удачные"),
  ("ttd_in_opponent_box_success_pct", "ТТД в штрафной соперника удачные, %"),
  ("final_third_entries", "Входы в финальную треть"),
  ("final_third_entries_pass", "Входы в финальную треть через пас"),
  ("final_third_entries_pass_pct", "Входы в финальную треть через пас, % от всего"),
  ("final_third_entries_dribble", "Входы в финальную треть через продвижение"),
  ("final_third_entries_dribble_pct", "Входы в финальную треть через продвижение, % от всего"),
  ("losses", "Потери"),
  ("losses_own_half", "Потери мяча на своей половине"),
  ("losses_passes", "Потери при передачах"),
  ("losses_individual", "Потери индивидуальные"),
  ("bad_touches", "Обработки мяча неудачные"),
  ("offsides", "Офсайды"),
  ("ball_recoveries", "Овладевания мячом"),
  ("ball_recoveries_opponent_half", "Овладевания мячом на половине поля соперника"),
  ("carries", "Ведения мяча"),
  ("xg", "xG (ожидаемые голы)"),
  ("xa", "xA (ожидаемые передачи)")]

/-- The identity fields extracted at the top of `_load_player_row`. -/
structure RowFields where
  full_name : String
  team_name : String
  position_code : String
  birth_year : Option Int
  height : Option Int
  weight : Option Int
  citizenship : Option String
deriving DecidableEq

/-- `row[col]`: KeyError when the column is absent. -/
def reqCell (r : Row) (c : String) : Except PyErr Cell :=
  match r.find c with
  | some v => .ok v
  | none => .error (.keyError c)

/-- `current_year - int(age) if pd.notna(age) and age > 0 else None`; a text
age raises TypeError at the comparison, `int(inf)` overflows. -/
def ageBirthYear (c : Option Cell) (year : Int) : Except PyErr (Option Int) :=
  match c with
  | none => .ok none
  | some .missing => .ok none
  | some (.num .nan) => .ok none
  | some (.num (.fin q)) => if 0 < q then .ok (some (year - ratTrunc q)) else .ok none
  | some (.num .inf) => .error .valueError
  | some (.num .ninf) => .ok none
  | some (.str _) => .error .typeError

/-- `int(v) if pd.notna(v) and v != '-' else None` for height and weight. -/
def intField (c : Option Cell) : Except PyErr (Option Int) :=
  match c with
  | none => .ok none
  | some .missing => .ok none
  | some (.num .nan) => .ok none
  | some (.str s) =>
    if s = "-" then .ok none
    else
      match pyParseInt s with
      | some n => .ok (some n)
      | none => .error .valueError
  | some (.num (.fin q)) => .ok (some (ratTrunc q))
  | some (.num .inf) => .error .valueError
  | some (.num .ninf) => .error .valueError

/-- `str(v).strip() if pd.notna(v) else None` for citizenship. -/
def citField (c : Option Cell) : Option String :=
  match c with
  | none => none
  | some .missing => none
  | some (.num .nan) => none
  | some v => some (pyStrip (strOfCell v))

/-- The pure field extraction at the top of `_load_player_row`, in source
order. -/
def rowFields (row : Row) (year : Int) : Except PyErr RowFields :=
  match reqCell row ("Игрок") with
  | .error e => .error e
  | .ok nameC =>
    match reqCell row ("Команда") with
    | .error e => .error e
    | .ok teamC =>
      let age := row.find ("Возраст")
      match reqCell row ("Позиция") with
      | .error e => .error e
      | .ok posC =>
        match ageBirthYear age year with
        | .error e => .error e
        | .ok birth_year =>
          match intField (row.find ("Рост")) with
          | .error e => .error e
          | .ok height =>
            match intField (row.find ("Вес")) with
            | .error e => .error e
            | .ok weight =>
              .ok { full_name := pyStrip (strOfCell nameC),
                    team_name := pyStrip (strOfCell teamC),
                    position_code := pyStrip (strOfCell posC),
                    birth_year := birth_year,
                    height := height, weight := weight,
                    citizenship := citField (row.find ("Гражданство")) }

/-- The per-metric body of the statistics loop of `_load_player_row`: the
value to store, or `none` when the metric is skipped (column absent, empty or
dash cell, failed numeric coercion, or non-finite value). -/
def metricAction (row : Row) (excel_column : String) : Option ℚ :=
  match row.find excel_column with
  | none => none
  | some c =>
    if isnaCell c then none
    else if c = Cell.str ("-") then none
    else
      match c with
      | .str s => pyParseFloat s
      | .num (.fin q) => some q
      | .num _ => none
      | .missing => none

/-- The statistics loop of `_load_player_row`: iterate `METRICS_MAPPING`,
upsert each storable value, count the writes. -/
def writeMetrics (db : DB) (row : Row) (player_id slice_id : Nat) : DB × Nat :=
  METRICS_MAPPING.foldl
    (fun acc mc =>
      match metricAction row mc.2 with
      | none => acc
      | some v => (upsertStat acc.1 player_id slice_id mc.1 v, acc.2 + 1))
    (db, 0)

/-- `DataLoader._load_player_row`: extract identity fields, resolve the
position (an unknown code returns 0 without touching the database), upsert the
player, then write the metrics, returning the statistics count. -/
def load_player_row (db : DB) (row : Row) (tournament_id slice_id : Nat) (year : Int) :
    Except PyErr (DB × Nat) :=
  match rowFields row year with
  | .error e => .error e
  | .ok f =>
    match posLookup db f.position_code with
    | none => .ok (db, 0)
    | some position_id =>
      if position_id = 0 then .ok (db, 0)
      else
        let pk : PKey := (f.full_name, f.birth_year, f.team_name, tournament_id)
        let pr := upsertPlayer db pk position_id f.height f.weight f.citizenship
        .ok (writeMetrics pr.2 row pr.1 slice_id)

/-- The per-row loop of `load_file`: each row runs inside its own
`try/except Exception`; a failing row is logged and skipped and the loop
continues, otherwise the player counter and the statistics counter advance. -/
def loadRows (db : DB) (rows : List Row) (tournament_id slice_id : Nat) (year : Int) :
    DB × Nat × Nat :=
  rows.foldl
    (fun acc row =>
      match load_player_row acc.1 row tournament_id slice_id year with
      | .ok r => (r.1, acc.2.1 + 1, acc.2.2 + r.2)
      | .error _ => acc)
    (db, 0, 0)

/-- The aggregate result dictionary of `load_file`. -/
structure LoadResult where
  players_loaded : Nat
  stats_loaded : Nat
  slice_id : Nat
  is_new_slice : Bool
deriving DecidableEq

/-- `DataLoader.load_file` on the fault-free path, from parsed rows to the
committed state: default the SEASON period value from the tournament, run the
advisory rollover check (its result only feeds logging, as in the source),
resolve the slice, load every row with per-row error recovery, commit. -/
def load_file (db : DB) (rows : List Row) (tournament_id : Nat)
    (slice_type period_type : String) (period_value : Option String)
    (force_new_season : Bool) (year : Int) : DB × LoadResult :=
  let pv := if period_type = "SEASON" ∧ period_value = none
            then some (get_tournament_season db tournament_id year) else period_value
  let _should_create_new :=
    if period_type = "SEASON" ∧ force_new_season = false
    then check_new_season_needed db tournament_id slice_type pv else false
  let us := upsert_slice db tournament_id slice_type period_type pv force_new_season
  let lr := loadRows us.1 rows tournament_id us.2.1 year
  (lr.1, { players_loaded := lr.2.1, stats_loaded := lr.2.2,
           slice_id := us.2.1, is_new_slice := us.2.2 })

/-- Comparator for the advisory-check claim: `load_file` with the rollover
check removed, following the spec sentence that the check must not alter
ingestion. -/
def load_file_no_advisory (db : DB) (rows : List Row) (tournament_id : Nat)
    (slice_type period_type : String) (period_value : Option String)
    (force_new_season : Bool) (year : Int) : DB × LoadResult :=
  let pv := if period_type = "SEASON" ∧ period_value = none
            then some (get_tournament_season db tournament_id year) else period_value
  let us := upsert_slice db tournament_id slice_type period_type pv force_new_season
  let lr := loadRows us.1 rows tournament_id us.2.1 year
  (lr.1, { players_loaded := lr.2.1, stats_loaded := lr.2.2,
           slice_id := us.2.1, is_new_slice := us.2.2 })

/-!
## Instrumented semantics

`load_file` runs inside one SQLAlchemy session: statements act on the open
transaction (`working`), `commit` publishes it to the durable store
(`committed`), `rollback` discards it.  A fault oracle decides, per logical
tick and statement label, whether the statement raises (connectivity loss
etc.); a faulted statement has no effect on the state.
-/

/-- A database session: durable committed store, open-transaction state,
commit counter and the logical tick consumed by statements. -/
structure Sess where
  committed : DB
  working : DB
  commits : Nat
  tick : Nat

/-- The adversary: which statement executions raise. -/
abbrev Faults := Nat → DbOp → Bool

/-- Run one SQL statement: consume a tick; either raise (no state effect) or
apply the statement's function to the open transaction. -/
def dbStep {α : Type} (f : Faults) (op : DbOp) (g : DB → α × DB) (s : Sess) :
    Except (PyErr × Sess) (α × Sess) :=
  let s1 : Sess := { s with tick := s.tick + 1 }
  if f s.tick op then .error (.dbError op, s1)
  else
    let r := g s.working
    .ok (r.1, { s1 with working := r.2 })

/-- `self.db.commit()`: publish the working state, or raise. -/
def commitM (f : Faults) (s : Sess) : Except (PyErr × Sess) Sess :=
  let s1 : Sess := { s with tick := s.tick + 1 }
  if f s.tick .commitOp then .error (.dbError .commitOp, s1)
  else .ok { s1 with committed := s1.working, commits := s1.commits + 1 }

/-- `DataLoader._load_player_row` under the instrumented semantics; Python
level errors raise with the session as it stands. -/
def metricsLoopM (f : Faults) (row : Row) (player_id slice_id : Nat) :
    List (String × String) → Nat → Sess → Except (PyErr × Sess) (Nat × Sess)
  | [], cnt, s => .ok (cnt, s)
  | mc :: rest, cnt, s =>
    match metricAction row mc.2 with
    | none => metricsLoopM f row player_id slice_id rest cnt s
    | some v =>
      match dbStep f .statUpsertQ (fun db => ((), upsertStat db player_id slice_id mc.1 v)) s with
      | .error es => .error es
      | .ok r => metricsLoopM f row player_id slice_id rest (cnt + 1) r.2

/-- `DataLoader._load_player_row`, instrumented. -/
def load_player_rowM (f : Faults) (row : Row) (tournament_id slice_id : Nat) (year : Int)
    (s : Sess) : Except (PyErr × Sess) (Nat × Sess) :=
  match rowFields row year with
  | .error e => .error (e, s)
  | .ok flds =>
    match dbStep f .positionQ (fun db => (posLookup db flds.position_code, db)) s with
    | .error es => .error es
    | .ok (pidOpt, s2) =>
      match pidOpt with
      | none => .ok (0, s2)
      | some position_id =>
        if position_id = 0 then .ok (0, s2)
        else
          match dbStep f .playerUpsertQ (fun db =>
              upsertPlayer db (flds.full_name, flds.birth_year, flds.team_name, tournament_id)
                position_id flds.height flds.weight flds.citizenship) s2 with
          | .error es => .error es
          | .ok (player_id, s3) => metricsLoopM f row player_id slice_id METRICS_MAPPING 0 s3

/-- The per-row loop of `load_file`, instrumented: the `except Exception`
around each row catches every per-row error, so the loop itself never
raises. -/
def loadRowsM (f : Faults) (tournament_id slice_id : Nat) (year : Int) :
    List Row → Nat → Nat → Sess → Nat × Nat × Sess
  | [], pl, st, s => (pl, st, s)
  | row :: rest, pl, st, s =>
    match load_player_rowM f row tournament_id slice_id year s with
    | .ok r => loadRowsM f tournament_id slice_id year rest (pl + 1) (st + r.1) r.2
    | .error r => loadRowsM f tournament_id slice_id year rest pl st r.2

/-- Step 2 of `load_file`: default the SEASON period value from the
tournament's configured season (a database read). -/
def resolvePvM (f : Faults) (tournament_id : Nat) (period_type : String)
    (period_value : Option String) (year : Int) (s : Sess) :
    Except (PyErr × Sess) (Option String × Sess) :=
  if period_type = "SEASON" ∧ period_value = none then
    match dbStep f .seasonQ (fun db => (get_tournament_season db tournament_id year, db)) s with
    | .error es => .error es
    | .ok r => .ok (some r.1, r.2)
  else .ok (period_value, s)

/-- Step 3 of `load_file`: the advisory rollover check (a database read whose
result only feeds logging). -/
def rolloverCheckM (f : Faults) (tournament_id : Nat) (slice_type period_type : String)
    (pv : Option String) (force_new_season : Bool) (s : Sess) :
    Except (PyErr × Sess) (Bool × Sess) :=
  if period_type = "SEASON" ∧ force_new_season = false then
    dbStep f .rolloverQ (fun db => (check_new_season_needed db tournament_id slice_type pv, db)) s
  else .ok (false, s)

/-- `DataLoader._upsert_slice`, instrumented. -/
def upsert_sliceM (f : Faults) (tournament_id : Nat) (slice_type period_type : String)
    (period_value : Option String) (force_new : Bool) (s : Sess) :
    Except (PyErr × Sess) ((Nat × Bool) × Sess) :=
  if period_type = "SEASON" ∧ force_new = false then
    match dbStep f .sliceFindQ (fun db =>
        (sliceFind db tournament_id slice_type period_type period_value, db)) s with
    | .error es => .error es
    | .ok (found, s2) =>
      match found with
      | some existing_id =>
        match dbStep f .sliceUpdateQ (fun db => ((), sliceUpdate db existing_id
            (slice_type ++ " " ++ period_type ++ " " ++ pvRepr period_value ++ " (обновлено)"))) s2 with
        | .error es => .error es
        | .ok r => .ok ((existing_id, false), r.2)
      | none =>
        match dbStep f .sliceInsertQ (fun db => sliceInsert db tournament_id slice_type
            period_type period_value
            (slice_type ++ " " ++ period_type ++ " " ++ pvRepr period_value)) s2 with
        | .error es => .error es
        | .ok r => .ok ((r.1, true), r.2)
  else
    match dbStep f .sliceInsertQ (fun db => sliceInsert db tournament_id slice_type
        period_type period_value
        (slice_type ++ " " ++ period_type ++ " " ++ pvRepr period_value)) s with
    | .error es => .error es
    | .ok r => .ok ((r.1, true), r.2)

/-- The `try:` body of `load_file`, instrumented; `fileData = none` models
`pd.read_excel` raising. -/
def load_file_body (f : Faults) (fileData : Option (List Row)) (tournament_id : Nat)
    (slice_type period_type : String) (period_value : Option String)
    (force_new_season : Bool) (year : Int) (s : Sess) :
    Except (PyErr × Sess) (LoadResult × Sess) :=
  match fileData with
  | none => .error (.fileError, s)
  | some rows =>
    match resolvePvM f tournament_id period_type period_value year s with
    | .error es => .error es
    | .ok (pv, s2) =>
      match rolloverCheckM f tournament_id slice_type period_type pv force_new_season s2 with
      | .error es => .error es
      | .ok (_, s3) =>
        match upsert_sliceM f tournament_id slice_type period_type pv force_new_season s3 with
        | .error es => .error es
        | .ok (sl, s4) =>
          let lr := loadRowsM f tournament_id sl.1 year rows 0 0 s4
          match commitM f lr.2.2 with
          | .error es => .error es
          | .ok s5 =>
            .ok ({ players_loaded := lr.1, stats_loaded := lr.2.1,
                   slice_id := sl.1, is_new_slice := sl.2 }, s5)

/-- `DataLoader.load_file`, instrumented: the body under the outer
`try/except` that rolls the transaction back and re-raises on any escaping
exception. -/
def load_fileM (f : Faults) (fileData : Option (List Row)) (tournament_id : Nat)
    (slice_type period_type : String) (period_value : Option String)
    (force_new_season : Bool) (year : Int) (s : Sess) :
    Except (PyErr × Sess) (LoadResult × Sess) :=
  match load_file_body f fileData tournament_id slice_type period_type period_value
      force_new_season year s with
  | .ok r => .ok r
  | .error (e, s2) => .error (e, { s2 with working := s2.committed })

/-- The session an instrumented outcome ends in, error or not. -/
def outSess {α : Type} : Except (PyErr × Sess) (α × Sess) → Sess
  | .ok r => r.2
  | .error r => r.2

/-- The error of an instrumented outcome, when there is one. -/
def errOf {α : Type} : Except (PyErr × Sess) (α × Sess) → Option PyErr
  | .ok _ => none
  | .error r => some r.1

/-- Before the final commit nothing changes the durable store or the commit
counter. -/
def presFrame (s s2 : Sess) : Prop :=
  s2.committed = s.committed ∧ s2.commits = s.commits

/-- Point update of the statistics store: the semantics of one
`player_statistics` upsert. -/
def setStat (st : SKey → Option ℚ) (k : SKey) (v : ℚ) : SKey → Option ℚ :=
  fun k2 => if k2 = k then some v else st k2

/-- Apply a sequence of statistics stores in order. -/
def applySets (st : SKey → Option ℚ) (L : List (SKey × ℚ)) : SKey → Option ℚ :=
  L.foldl (fun acc p => setStat acc p.1 p.2) st

/-- The last value stored at a key by a sequence of stores, if any. -/
def lastVal (L : List (SKey × ℚ)) (k : SKey) : Option ℚ :=
  L.foldl (fun acc p => coal (if p.1 = k then some p.2 else none) acc) none

/-- The (metric_code, value) pairs a row actually stores, in catalog order. -/
def rowWrites (row : Row) : List (String × ℚ) :=
  METRICS_MAPPING.filterMap (fun mc => (metricAction row mc.2).map (fun v => (mc.1, v)))

/-- The value columns of a player row (everything except the id). -/
structure AttrsV where
  position_id : Nat
  height : Option Int
  weight : Option Int
  citizenship : Option String
deriving DecidableEq

/-- Forget the id of a stored player row. -/
def avOfAttrs (a : PlayerAttrs) : AttrsV :=
  ⟨a.position_id, a.height, a.weight, a.citizenship⟩

/-- Rebuild a stored player row from id and value columns. -/
def mkAttrs (p : Nat) (v : AttrsV) : PlayerAttrs :=
  ⟨p, v.position_id, v.height, v.weight, v.citizenship⟩

/-- The effect one successfully parsed row with a known position has on the
store: the player natural key, the merged identity columns, and the metric
writes.  Rows that fail identity parsing or position resolution have no
effect. -/
structure RowAct where
  key : PKey
  position_id : Nat
  height : Option Int
  weight : Option Int
  citizenship : Option String
  writes : List (String × ℚ)
deriving DecidableEq

/-- The effect of one row, computed from the (constant) position table, the
row and the year, mirroring the control flow of `_load_player_row`. -/
def rowAct (positions : List (String × Nat)) (row : Row) (tournament_id : Nat)
    (year : Int) : Option RowAct :=
  match rowFields row year with
  | .error _ => none
  | .ok f =>
    match (positions.find? (fun p => p.1 = f.position_code)).map (fun p => p.2) with
    | none => none
    | some position_id =>
      if position_id = 0 then none
      else some {
        key := (f.full_name, f.birth_year, f.team_name, tournament_id),
        position_id := position_id, height := f.height, weight := f.weight,
        citizenship := f.citizenship, writes := rowWrites row }

/-- Apply one row effect: upsert the player, then store its metric values. -/
def applyAct (slice_id : Nat) (db : DB) (a : RowAct) : DB :=
  let pr := upsertPlayer db a.key a.position_id a.height a.weight a.citizenship
  a.writes.foldl (fun d w => upsertStat d pr.1 slice_id w.1 w.2) pr.2

/-- Value columns carried by a row effect. -/
def avOfAct (a : RowAct) : AttrsV :=
  ⟨a.position_id, a.height, a.weight, a.citizenship⟩

/-- One COALESCE merge of new value columns over a base. -/
def qstep (b : AttrsV) (v : AttrsV) : AttrsV :=
  ⟨v.position_id, coal v.height b.height, coal v.weight b.weight,
   coal v.citizenship b.citizenship⟩

/-- Merge a sequence of value columns over a base, in order. -/
def qchain (L : List AttrsV) (b : AttrsV) : AttrsV :=
  L.foldl qstep b

/-- Merge base of a possibly-absent stored row (the junk fields of the absent
case are overwritten by the first merge). -/
def baseOf : Option PlayerAttrs → AttrsV
  | some a => avOfAttrs a
  | none => ⟨0, none, none, none⟩

/-- The player id an upsert for this key returns: stored id when present,
next fresh id otherwise. -/
def pidAt (db : DB) (k : PKey) : Nat :=
  match db.players k with
  | some a => a.player_id
  | none => db.next_player_id

/-- The statistics stores of one row effect, keyed with the id its upsert
resolves against the given state. -/
def actWrites (db : DB) (slice_id : Nat) (a : RowAct) : List (SKey × ℚ) :=
  a.writes.map (fun w => ((pidAt db a.key, slice_id, w.1), w.2))

/-- The statistics-store trace of a sequence of row effects, with ids
resolved as the state evolves. -/
def wseq (slice_id : Nat) : DB → List RowAct → List (SKey × ℚ)
  | _, [] => []
  | db, a :: t => actWrites db slice_id a ++ wseq slice_id (applyAct slice_id db a) t

/-- The same trace with every id resolved against one fixed state. -/
def wcanon (y : DB) (slice_id : Nat) (A : List RowAct) : List (SKey × ℚ) :=
  (A.map (actWrites y slice_id)).flatten

/-- Equality of the stores the row loop touches. -/
def coreEq (db db2 : DB) : Prop :=
  db2.players = db.players ∧ db2.next_player_id = db.next_player_id ∧
  db2.stats = db.stats

/-- The fields the row loop never touches. -/
def sliceFrame (db db2 : DB) : Prop :=
  db2.positions = db.positions ∧ db2.tournaments = db.tournaments ∧
  db2.slices = db.slices ∧ db2.next_slice_id = db.next_slice_id ∧
  db2.clock = db.clock

/-- The fields slice resolution never touches. -/
def playerFrame (db db2 : DB) : Prop :=
  db2.players = db.players ∧ db2.next_player_id = db.next_player_id ∧
  db2.stats = db.stats ∧ db2.positions = db.positions ∧
  db2.tournaments = db.tournaments

/-- The fault-free oracle. -/
def noFaults : Faults := fun _ _ => false

/-- An oracle that faults exactly the advisory rollover query and nothing
else. -/
def rolloverOnlyFaults : Faults := fun _ op => op = DbOp.rolloverQ

/-- Scenario row: Ivanov, CSKA, age 17, position FW, goals "5", xG "3.2". -/
def rowIvanov : Row := ⟨[
  ("Игрок", .str "Ivanov"), ("Команда", .str "CSKA"),
  ("Возраст", .num (.fin 17)), ("Позиция", .str "FW"),
  ("Голы", .str "5"), ("xG (ожидаемые голы)", .str "3.2")]⟩

/-- Scenario row: Petrov, CSKA, age 18, position MF, goals "-", xG "1.1". -/
def rowPetrov : Row := ⟨[
  ("Игрок", .str "Petrov"), ("Команда", .str "CSKA"),
  ("Возраст", .num (.fin 18)), ("Позиция", .str "MF"),
  ("Голы", .str "-"), ("xG (ожидаемые голы)", .str "1.1")]⟩

/-- Scenario row with the unknown position code "XX". -/
def rowUnknownPos : Row := ⟨[
  ("Игрок", .str "Sidorov"), ("Команда", .str "CSKA"),
  ("Возраст", .num (.fin 16)), ("Позиция", .str "XX"),
  ("Голы", .str "2")]⟩

/-- An empty store with positions FW and MF resolvable and tournament 0
configured for season 2025. -/
def dbEmpty : DB := {
  positions := [("FW", 1), ("MF", 2)],
  tournaments := [(0, some "2025")],
  players := fun _ => none,
  next_player_id := 1,
  slices := [],
  next_slice_id := 1,
  stats := fun _ => none,
  clock := 0 }

/-- A row with an unparseable goals cell and a valid xG cell. -/
def rowBadMetric : Row := ⟨[
  ("Игрок", .str "Ivanov"), ("Команда", .str "CSKA"),
  ("Возраст", .num (.fin 17)), ("Позиция", .str "FW"),
  ("Голы", .str "x2"), ("xG (ожидаемые голы)", .str "1.1")]⟩

/-- A TOTAL/SEASON/2025 slice row for tournament 0. -/
def sliceRow2025 : SliceRow :=
  { slice_id := 1, tournament_id := 0, slice_type := "TOTAL",
    period_type := "SEASON", period_value := some "2025",
    description := "TOTAL SEASON 2025", uploaded_at := 0 }

/-- A store holding one TOTAL/SEASON/2025 slice for tournament 0. -/
def dbSlice : DB := { dbEmpty with slices := [sliceRow2025], next_slice_id := 2 }

/-- The identity fields `_load_player_row` extracts from the unknown-position
row in year 2026. -/
def fldsSidorov : RowFields := {
  full_name := "Sidorov", team_name := "CSKA",
  position_code := "XX", birth_year := some 2010, height := none, weight := none,
  citizenship := none }

/-- A stored player row with a known height of 180. -/
def attrs180 : PlayerAttrs := {
  player_id := 1, position_id := 1, height := some 180, weight := none,
  citizenship := none }

/-- A store holding that one player under the Ivanov natural key. -/
def dbP : DB := { dbEmpty with players := fun k2 =>
  if k2 = (("Ivanov", some 2009, "CSKA", 0) : PKey) then some attrs180 else none }

/-- A fresh session over the empty store. -/
def sess0 : Sess := { committed := dbEmpty, working := dbEmpty, commits := 0, tick := 0 }

theorem presFrame_rfl (s : Sess) : presFrame s s := ⟨rfl, rfl⟩

theorem presFrame_trans {s1 s2 s3 : Sess} (h1 : presFrame s1 s2) (h2 : presFrame s2 s3) :
    presFrame s1 s3 := ⟨h2.1.trans h1.1, h2.2.trans h1.2⟩

theorem dbStep_frame {α : Type} (f : Faults) (op : DbOp) (g : DB → α × DB) (s : Sess) :
    presFrame s (outSess (dbStep f op g s)) := by
  unfold dbStep
  by_cases hf : f s.tick op
  · simp only [if_pos hf, outSess]
    exact ⟨rfl, rfl⟩
  · simp only [if_neg hf, outSess]
    exact ⟨rfl, rfl⟩

theorem dbStep_error {α : Type} {f : Faults} {op : DbOp} {g : DB → α × DB} {s : Sess}
    {e : PyErr} {s2 : Sess} (h : dbStep f op g s = .error (e, s2)) : e = .dbError op := by
  unfold dbStep at h
  by_cases hf : f s.tick op
  · simp only [if_pos hf] at h
    cases h
    rfl
  · simp only [if_neg hf] at h
    cases h

theorem metricsLoopM_frame (f : Faults) (row : Row) (pid sid : Nat) :
    ∀ (L : List (String × String)) (cnt : Nat) (s : Sess),
      presFrame s (outSess (metricsLoopM f row pid sid L cnt s)) := by
  intro L
  induction L with
  | nil => intro cnt s; exact presFrame_rfl s
  | cons mc rest ih =>
    intro cnt s
    cases hma : metricAction row mc.2 with
    | none =>
      simpa only [metricsLoopM, hma] using ih cnt s
    | some v =>
      have h := dbStep_frame f .statUpsertQ (fun db => ((), upsertStat db pid sid mc.1 v)) s
      cases hds : dbStep f .statUpsertQ (fun db => ((), upsertStat db pid sid mc.1 v)) s with
      | error es =>
        rw [hds] at h
        simp only [outSess] at h
        simpa only [metricsLoopM, hma, hds, outSess] using h
      | ok r =>
        rw [hds] at h
        simp only [outSess] at h
        simp only [metricsLoopM, hma, hds, outSess]
        exact presFrame_trans h (ih (cnt + 1) r.2)

theorem load_player_rowM_frame (f : Faults) (row : Row) (tid sid : Nat) (year : Int)
    (s : Sess) : presFrame s (outSess (load_player_rowM f row tid sid year s)) := by
  cases hrf : rowFields row year with
  | error e =>
    simp only [load_player_rowM, hrf, outSess]
    exact presFrame_rfl s
  | ok flds =>
    have h := dbStep_frame f .positionQ (fun db => (posLookup db flds.position_code, db)) s
    cases hp : dbStep f .positionQ (fun db => (posLookup db flds.position_code, db)) s with
    | error es =>
      rw [hp] at h
      simp only [outSess] at h
      simpa only [load_player_rowM, hrf, hp, outSess] using h
    | ok r =>
      rw [hp] at h
      simp only [outSess] at h
      obtain ⟨pidOpt, s2⟩ := r
      simp only [load_player_rowM, hrf, hp, outSess]
      cases pidOpt with
      | none => exact h
      | some position_id =>
        by_cases hz : position_id = 0
        · simp only [hz, if_pos rfl, outSess]
          exact h
        · simp only [if_neg hz]
          have h2 := dbStep_frame f .playerUpsertQ (fun db =>
            upsertPlayer db (flds.full_name, flds.birth_year, flds.team_name, tid)
              position_id flds.height flds.weight flds.citizenship) s2
          cases hu : dbStep f .playerUpsertQ (fun db =>
              upsertPlayer db (flds.full_name, flds.birth_year, flds.team_name, tid)
                position_id flds.height flds.weight flds.citizenship) s2 with
          | error es =>
            rw [hu] at h2
            simp only [outSess] at h2
            simp only [hu, outSess]
            exact presFrame_trans h h2
          | ok r2 =>
            rw [hu] at h2
            simp only [outSess] at h2
            obtain ⟨player_id, s3⟩ := r2
            simp only [hu, outSess]
            exact presFrame_trans h
              (presFrame_trans h2 (metricsLoopM_frame f row player_id sid METRICS_MAPPING 0 s3))

theorem loadRowsM_frame (f : Faults) (tid sid : Nat) (year : Int) :
    ∀ (rows : List Row) (pl st : Nat) (s : Sess),
      presFrame s (loadRowsM f tid sid year rows pl st s).2.2 := by
  intro rows
  induction rows with
  | nil => intro pl st s; exact presFrame_rfl s
  | cons row rest ih =>
    intro pl st s
    have h := load_player_rowM_frame f row tid sid year s
    cases hr : load_player_rowM f row tid sid year s with
    | ok r =>
      rw [hr] at h
      simp only [outSess] at h
      simp only [loadRowsM, hr]
      exact presFrame_trans h (ih (pl + 1) (st + r.1) r.2)
    | error r =>
      rw [hr] at h
      simp only [outSess] at h
      simp only [loadRowsM, hr]
      exact presFrame_trans h (ih pl st r.2)

theorem resolvePvM_frame (f : Faults) (tid : Nat) (pt : String) (pv : Option String)
    (year : Int) (s : Sess) : presFrame s (outSess (resolvePvM f tid pt pv year s)) := by
  unfold resolvePvM
  split
  · have h := dbStep_frame f .seasonQ (fun db => (get_tournament_season db tid year, db)) s
    cases hd : dbStep f .seasonQ (fun db => (get_tournament_season db tid year, db)) s with
    | error es =>
      rw [hd] at h
      simpa only [hd, outSess] using h
    | ok r =>
      rw [hd] at h
      simpa only [hd, outSess] using h
  · exact presFrame_rfl s

theorem rolloverCheckM_frame (f : Faults) (tid : Nat) (st pt : String) (pv : Option String)
    (force : Bool) (s : Sess) : presFrame s (outSess (rolloverCheckM f tid st pt pv force s)) := by
  unfold rolloverCheckM
  split
  · exact dbStep_frame f .rolloverQ _ s
  · exact presFrame_rfl s

/-- The advisory rollover check is read-only: it leaves the open transaction,
the durable store and the commit counter untouched, whatever its outcome. -/
theorem rolloverCheckM_readonly (f : Faults) (tid : Nat) (st pt : String)
    (pv : Option String) (force : Bool) (s : Sess) :
    (outSess (rolloverCheckM f tid st pt pv force s)).working = s.working ∧
    (outSess (rolloverCheckM f tid st pt pv force s)).committed = s.committed ∧
    (outSess (rolloverCheckM f tid st pt pv force s)).commits = s.commits := by
  unfold rolloverCheckM
  split
  · unfold dbStep
    by_cases hf : f s.tick .rolloverQ
    · simp [if_pos hf, outSess]
    · simp [if_neg hf, outSess]
  · simp [outSess]

theorem upsert_sliceM_frame (f : Faults) (tid : Nat) (st pt : String) (pv : Option String)
    (force : Bool) (s : Sess) : presFrame s (outSess (upsert_sliceM f tid st pt pv force s)) := by
  unfold upsert_sliceM
  split
  · have h := dbStep_frame f .sliceFindQ (fun db => (sliceFind db tid st pt pv, db)) s
    cases hf : dbStep f .sliceFindQ (fun db => (sliceFind db tid st pt pv, db)) s with
    | error es =>
      rw [hf] at h
      simpa only [hf, outSess] using h
    | ok r =>
      rw [hf] at h
      simp only [outSess] at h
      obtain ⟨found, s2⟩ := r
      simp only [hf]
      cases found with
      | some existing_id =>
        have h2 := dbStep_frame f .sliceUpdateQ (fun db => ((), sliceUpdate db existing_id
          (st ++ " " ++ pt ++ " " ++ pvRepr pv ++ " (обновлено)"))) s2
        cases hu : dbStep f .sliceUpdateQ (fun db => ((), sliceUpdate db existing_id
            (st ++ " " ++ pt ++ " " ++ pvRepr pv ++ " (обновлено)"))) s2 with
        | error es =>
          rw [hu] at h2
          simp only [outSess] at h2
          simp only [hu, outSess]
          exact presFrame_trans h h2
        | ok r2 =>
          rw [hu] at h2
          simp only [outSess] at h2
          simp only [hu, outSess]
          exact presFrame_trans h h2
      | none =>
        have h2 := dbStep_frame f .sliceInsertQ (fun db => sliceInsert db tid st pt pv
          (st ++ " " ++ pt ++ " " ++ pvRepr pv)) s2
        cases hi : dbStep f .sliceInsertQ (fun db => sliceInsert db tid st pt pv
            (st ++ " " ++ pt ++ " " ++ pvRepr pv)) s2 with
        | error es =>
          rw [hi] at h2
          simp only [outSess] at h2
          simp only [hi, outSess]
          exact presFrame_trans h h2
        | ok r2 =>
          rw [hi] at h2
          simp only [outSess] at h2
          simp only [hi, outSess]
          exact presFrame_trans h h2
  · have h := dbStep_frame f .sliceInsertQ (fun db => sliceInsert db tid st pt pv
      (st ++ " " ++ pt ++ " " ++ pvRepr pv)) s
    cases hi : dbStep f .sliceInsertQ (fun db => sliceInsert db tid st pt pv
        (st ++ " " ++ pt ++ " " ++ pvRepr pv)) s with
    | error es =>
      rw [hi] at h
      simpa only [hi, outSess] using h
    | ok r =>
      rw [hi] at h
      simpa only [hi, outSess] using h

theorem commitM_ok {f : Faults} {s s2 : Sess} (h : commitM f s = .ok s2) :
    s2.commits = s.commits + 1 ∧ s2.committed = s2.working := by
  unfold commitM at h
  by_cases hf : f s.tick .commitOp
  · simp only [if_pos hf] at h
    cases h
  · simp only [if_neg hf] at h
    cases h
    exact ⟨rfl, rfl⟩

theorem commitM_error {f : Faults} {s : Sess} {e : PyErr} {s2 : Sess}
    (h : commitM f s = .error (e, s2)) : e = .dbError .commitOp ∧ presFrame s s2 := by
  unfold commitM at h
  by_cases hf : f s.tick .commitOp
  · simp only [if_pos hf] at h
    cases h
    exact ⟨rfl, rfl, rfl⟩
  · simp only [if_neg hf] at h
    cases h

theorem resolvePvM_error {f : Faults} {tid : Nat} {pt : String} {pv : Option String}
    {year : Int} {s : Sess} {e : PyErr} {s2 : Sess}
    (h : resolvePvM f tid pt pv year s = .error (e, s2)) : e = .dbError .seasonQ := by
  unfold resolvePvM at h
  split at h
  · cases hd : dbStep f .seasonQ (fun db => (get_tournament_season db tid year, db)) s with
    | error es =>
      simp only [hd] at h
      cases h
      exact dbStep_error hd
    | ok r =>
      simp only [hd] at h
      cases h
  · cases h

theorem rolloverCheckM_error {f : Faults} {tid : Nat} {st pt : String} {pv : Option String}
    {force : Bool} {s : Sess} {e : PyErr} {s2 : Sess}
    (h : rolloverCheckM f tid st pt pv force s = .error (e, s2)) : e = .dbError .rolloverQ := by
  unfold rolloverCheckM at h
  split at h
  · exact dbStep_error h
  · cases h

theorem upsert_sliceM_error {f : Faults} {tid : Nat} {st pt : String} {pv : Option String}
    {force : Bool} {s : Sess} {e : PyErr} {s2 : Sess}
    (h : upsert_sliceM f tid st pt pv force s = .error (e, s2)) :
    e = .dbError .sliceFindQ ∨ e = .dbError .sliceUpdateQ ∨ e = .dbError .sliceInsertQ := by
  unfold upsert_sliceM at h
  split at h
  · cases hf : dbStep f .sliceFindQ (fun db => (sliceFind db tid st pt pv, db)) s with
    | error es =>
      simp only [hf] at h
      cases h
      exact Or.inl (dbStep_error hf)
    | ok r =>
      simp only [hf] at h
      obtain ⟨found, s3⟩ := r
      cases found with
      | some existing_id =>
        simp only [] at h
        cases hu : dbStep f .sliceUpdateQ (fun db => ((), sliceUpdate db existing_id
            (st ++ " " ++ pt ++ " " ++ pvRepr pv ++ " (обновлено)"))) s3 with
        | error es =>
          simp only [hu] at h
          cases h
          exact Or.inr (Or.inl (dbStep_error hu))
        | ok r2 =>
          simp only [hu] at h
          cases h
      | none =>
        simp only [] at h
        cases hi : dbStep f .sliceInsertQ (fun db => sliceInsert db tid st pt pv
            (st ++ " " ++ pt ++ " " ++ pvRepr pv)) s3 with
        | error es =>
          simp only [hi] at h
          cases h
          exact Or.inr (Or.inr (dbStep_error hi))
        | ok r2 =>
          simp only [hi] at h
          cases h
  · cases hi : dbStep f .sliceInsertQ (fun db => sliceInsert db tid st pt pv
        (st ++ " " ++ pt ++ " " ++ pvRepr pv)) s with
    | error es =>
      simp only [hi] at h
      cases h
      exact Or.inr (Or.inr (dbStep_error hi))
    | ok r =>
      simp only [hi] at h
      cases h

/-- Specification of the `try:` body: a success commits exactly once and
publishes the working state; a failure leaves the durable store and the commit
counter untouched and can only originate in the file read, the
default-season query, the rollover check, the slice statements, or the
commit. -/
theorem load_file_body_spec (f : Faults) (fileData : Option (List Row)) (tid : Nat)
    (st pt : String) (pv : Option String) (force : Bool) (year : Int) (s : Sess) :
    (∀ res s2, load_file_body f fileData tid st pt pv force year s = .ok (res, s2) →
      s2.commits = s.commits + 1 ∧ s2.committed = s2.working) ∧
    (∀ e s2, load_file_body f fileData tid st pt pv force year s = .error (e, s2) →
      presFrame s s2 ∧
      (e = .fileError ∨ e = .dbError .seasonQ ∨ e = .dbError .rolloverQ ∨
       e = .dbError .sliceFindQ ∨ e = .dbError .sliceUpdateQ ∨
       e = .dbError .sliceInsertQ ∨ e = .dbError .commitOp)) := by
  unfold load_file_body
  cases fileData with
  | none =>
    constructor
    · intro res s2 h
      cases h
    · intro e s2 h
      cases h
      exact ⟨⟨rfl, rfl⟩, Or.inl rfl⟩
  | some rows =>
    have hpv := resolvePvM_frame f tid pt pv year s
    cases hrp : resolvePvM f tid pt pv year s with
    | error es =>
      rw [hrp] at hpv
      simp only [outSess] at hpv
      constructor
      · intro res s2 h
        simp only [hrp] at h
        cases h
      · intro e s2 h
        simp only [hrp] at h
        cases h
        exact ⟨hpv, Or.inr (Or.inl (resolvePvM_error hrp))⟩
    | ok r =>
      rw [hrp] at hpv
      simp only [outSess] at hpv
      obtain ⟨pv2, sA⟩ := r
      have hrc := rolloverCheckM_frame f tid st pt pv2 force sA
      cases hrr : rolloverCheckM f tid st pt pv2 force sA with
      | error es =>
        rw [hrr] at hrc
        simp only [outSess] at hrc
        constructor
        · intro res s2 h
          simp only [hrp, hrr] at h
          cases h
        · intro e s2 h
          simp only [hrp, hrr] at h
          cases h
          exact ⟨presFrame_trans hpv hrc, Or.inr (Or.inr (Or.inl (rolloverCheckM_error hrr)))⟩
      | ok r2 =>
        rw [hrr] at hrc
        simp only [outSess] at hrc
        obtain ⟨chk, sB⟩ := r2
        have hus := upsert_sliceM_frame f tid st pt pv2 force sB
        cases hru : upsert_sliceM f tid st pt pv2 force sB with
        | error es =>
          rw [hru] at hus
          simp only [outSess] at hus
          constructor
          · intro res s2 h
            simp only [hrp, hrr, hru] at h
            cases h
          · intro e s2 h
            simp only [hrp, hrr, hru] at h
            cases h
            refine ⟨presFrame_trans hpv (presFrame_trans hrc hus), ?_⟩
            rcases upsert_sliceM_error hru with h1 | h1 | h1
            · exact Or.inr (Or.inr (Or.inr (Or.inl h1)))
            · exact Or.inr (Or.inr (Or.inr (Or.inr (Or.inl h1))))
            · exact Or.inr (Or.inr (Or.inr (Or.inr (Or.inr (Or.inl h1)))))
        | ok r3 =>
          rw [hru] at hus
          simp only [outSess] at hus
          obtain ⟨sl, sC⟩ := r3
          have hlr := loadRowsM_frame f tid sl.1 year rows 0 0 sC
          have hcm0 : presFrame s (loadRowsM f tid sl.1 year rows 0 0 sC).2.2 :=
            presFrame_trans hpv (presFrame_trans hrc (presFrame_trans hus hlr))
          cases hcm : commitM f (loadRowsM f tid sl.1 year rows 0 0 sC).2.2 with
          | error es =>
            constructor
            · intro res s2 h
              simp only [hrp, hrr, hru, hcm] at h
              cases h
            · intro e s2 h
              simp only [hrp, hrr, hru, hcm] at h
              cases h
              obtain ⟨he, hfr⟩ := commitM_error hcm
              exact ⟨presFrame_trans hcm0 hfr,
                Or.inr (Or.inr (Or.inr (Or.inr (Or.inr (Or.inr he)))))⟩
          | ok sD =>
            constructor
            · intro res s2 h
              simp only [hrp, hrr, hru, hcm] at h
              cases h
              obtain ⟨hc1, hc2⟩ := commitM_ok hcm
              exact ⟨by rw [hc1, hcm0.2], hc2⟩
            · intro e s2 h
              simp only [hrp, hrr, hru, hcm] at h
              cases h

theorem coal_none_left {α : Type} (b : Option α) : coal none b = b := rfl

theorem coal_none_right {α : Type} (a : Option α) : coal a none = a := by
  cases a <;> rfl

theorem coal_some {α : Type} (x : α) (b : Option α) : coal (some x) b = some x := rfl

theorem coal_assoc {α : Type} (a b c : Option α) :
    coal (coal a b) c = coal a (coal b c) := by
  cases a <;> rfl

theorem coal_self_absorb {α : Type} (a b : Option α) : coal a (coal a b) = coal a b := by
  cases a <;> rfl

/-- Generic base-splitting of a left fold of COALESCE merges. -/
theorem foldl_coal_split {α β : Type} (g : α → Option β) :
    ∀ (L : List α) (x : Option β),
      L.foldl (fun acc z => coal (g z) acc) x =
        coal (L.foldl (fun acc z => coal (g z) acc) none) x := by
  intro L
  induction L with
  | nil => intro x; rfl
  | cons z t ih =>
    intro x
    simp only [List.foldl_cons]
    rw [ih (coal (g z) x), ih (coal (g z) none), coal_none_right, coal_assoc]

theorem upsertStat_stats (db : DB) (p s : Nat) (c : String) (v : ℚ) :
    (upsertStat db p s c v).stats = setStat db.stats (p, s, c) v := rfl

theorem applySets_append (st : SKey → Option ℚ) (L1 L2 : List (SKey × ℚ)) :
    applySets st (L1 ++ L2) = applySets (applySets st L1) L2 := by
  simp only [applySets, List.foldl_append]

theorem lastVal_cons (p : SKey × ℚ) (t : List (SKey × ℚ)) (k : SKey) :
    lastVal (p :: t) k = coal (lastVal t k) (if p.1 = k then some p.2 else none) := by
  simp only [lastVal, List.foldl_cons, coal_none_right]
  exact foldl_coal_split (fun q => if q.1 = k then some q.2 else none) t _

/-- Evaluation of a sequence of stores: last store wins, else the base. -/
theorem applySets_eval (L : List (SKey × ℚ)) :
    ∀ (st : SKey → Option ℚ) (k : SKey),
      applySets st L k = coal (lastVal L k) (st k) := by
  induction L with
  | nil => intro st k; rfl
  | cons p t ih =>
    intro st k
    simp only [applySets, List.foldl_cons]
    have h1 : (t.foldl (fun acc q => setStat acc q.1 q.2) (setStat st p.1 p.2)) k =
        coal (lastVal t k) (setStat st p.1 p.2 k) := ih (setStat st p.1 p.2) k
    rw [h1, lastVal_cons, coal_assoc]
    congr 1
    by_cases hk : p.1 = k
    · subst hk
      simp [setStat, coal]
    · simp only [if_neg hk, coal_none_left, setStat]
      rw [if_neg (fun h => hk h.symm)]

/-- Replaying a sequence of stores is idempotent. -/
theorem applySets_replay (L : List (SKey × ℚ)) (st : SKey → Option ℚ) :
    applySets (applySets st L) L = applySets st L := by
  funext k
  rw [applySets_eval, applySets_eval, coal_self_absorb]

/-- `writeMetrics` characterized: it stores exactly the row's storable values
in catalog order and returns their number. -/
theorem writeMetrics_eq (row : Row) (pid sid : Nat) :
    ∀ (L : List (String × String)) (db : DB) (n : Nat),
      L.foldl (fun acc mc =>
        match metricAction row mc.2 with
        | none => acc
        | some v => (upsertStat acc.1 pid sid mc.1 v, acc.2 + 1)) (db, n) =
      ({ db with stats := applySets db.stats (((L.filterMap (fun mc => (metricAction row mc.2).map (fun v => (mc.1, v)))).map (fun w => ((pid, sid, w.1), w.2)))) },
       n + (L.filterMap (fun mc => (metricAction row mc.2).map (fun v => (mc.1, v)))).length) := by
  intro L
  induction L with
  | nil =>
    intro db n
    rfl
  | cons mc t ih =>
    intro db n
    cases hma : metricAction row mc.2 with
    | none =>
      simp only [List.foldl_cons, List.filterMap_cons, hma, Option.map_none']
      exact ih db n
    | some v =>
      simp only [List.foldl_cons, List.filterMap_cons, hma, Option.map_some']
      rw [ih (upsertStat db pid sid mc.1 v) (n + 1)]
      simp only [List.map_cons, List.length_cons]
      refine Prod.ext rfl ?_
      omega

theorem writeMetrics_spec (db : DB) (row : Row) (pid sid : Nat) :
    writeMetrics db row pid sid =
      ({ db with stats := applySets db.stats ((rowWrites row).map (fun w => ((pid, sid, w.1), w.2))) },
       (rowWrites row).length) := by
  have h := writeMetrics_eq row pid sid METRICS_MAPPING db 0
  simp only [Nat.zero_add] at h
  exact h

theorem sliceFrame_rfl (db : DB) : sliceFrame db db := ⟨rfl, rfl, rfl, rfl, rfl⟩

theorem sliceFrame_trans {a b c : DB} (h1 : sliceFrame a b) (h2 : sliceFrame b c) :
    sliceFrame a c :=
  ⟨h2.1.trans h1.1, h2.2.1.trans h1.2.1, h2.2.2.1.trans h1.2.2.1,
   h2.2.2.2.1.trans h1.2.2.2.1, h2.2.2.2.2.trans h1.2.2.2.2⟩

theorem upsertPlayer_sliceFrame (db : DB) (k : PKey) (pos : Nat) (h w : Option Int)
    (c : Option String) : sliceFrame db (upsertPlayer db k pos h w c).2 := by
  unfold upsertPlayer
  cases db.players k with
  | some a => exact ⟨rfl, rfl, rfl, rfl, rfl⟩
  | none => exact ⟨rfl, rfl, rfl, rfl, rfl⟩

theorem writeMetrics_sliceFrame (db : DB) (row : Row) (pid sid : Nat) :
    sliceFrame db (writeMetrics db row pid sid).1 := by
  rw [writeMetrics_spec]
  exact ⟨rfl, rfl, rfl, rfl, rfl⟩

theorem load_player_row_sliceFrame {db : DB} {row : Row} {tid sid : Nat} {year : Int}
    {db2 : DB} {cnt : Nat} (h : load_player_row db row tid sid year = .ok (db2, cnt)) :
    sliceFrame db db2 := by
  unfold load_player_row at h
  cases hrf : rowFields row year with
  | error e =>
    simp only [hrf] at h
    exact Except.noConfusion h
  | ok flds =>
    simp only [hrf] at h
    cases hpl : posLookup db flds.position_code with
    | none =>
      simp only [hpl] at h
      have h3 : db = db2 := congrArg Prod.fst (Except.ok.inj h)
      rw [← h3]
      exact sliceFrame_rfl db
    | some position_id =>
      simp only [hpl] at h
      by_cases hz : position_id = 0
      · simp only [if_pos hz] at h
        have h3 : db = db2 := congrArg Prod.fst (Except.ok.inj h)
        rw [← h3]
        exact sliceFrame_rfl db
      · simp only [if_neg hz] at h
        have h3 : _ = db2 := congrArg Prod.fst (Except.ok.inj h)
        rw [← h3]
        exact sliceFrame_trans
          (upsertPlayer_sliceFrame db (flds.full_name, flds.birth_year, flds.team_name, tid)
            position_id flds.height flds.weight flds.citizenship)
          (writeMetrics_sliceFrame _ row _ sid)

theorem loadRows_fold_sliceFrame (tid sid : Nat) (year : Int) :
    ∀ (rows : List Row) (acc : DB × Nat × Nat),
      sliceFrame acc.1 (rows.foldl (fun acc2 row =>
        match load_player_row acc2.1 row tid sid year with
        | .ok r => (r.1, acc2.2.1 + 1, acc2.2.2 + r.2)
        | .error _ => acc2) acc).1 := by
  intro rows
  induction rows with
  | nil => intro acc; exact sliceFrame_rfl acc.1
  | cons row rest ih =>
    intro acc
    simp only [List.foldl_cons]
    cases hr : load_player_row acc.1 row tid sid year with
    | ok r =>
      have h1 : sliceFrame acc.1 r.1 :=
        load_player_row_sliceFrame
          (show load_player_row acc.1 row tid sid year = Except.ok (r.1, r.2) by rw [hr])
      exact sliceFrame_trans h1 (ih (r.1, acc.2.1 + 1, acc.2.2 + r.2))
    | error e =>
      exact ih acc

theorem loadRows_sliceFrame (db : DB) (rows : List Row) (tid sid : Nat) (year : Int) :
    sliceFrame db (loadRows db rows tid sid year).1 :=
  loadRows_fold_sliceFrame tid sid year rows (db, 0, 0)

theorem upsert_slice_playerFrame (db : DB) (tid : Nat) (st pt : String)
    (pv : Option String) (force : Bool) :
    playerFrame db (upsert_slice db tid st pt pv force).1 := by
  unfold upsert_slice
  by_cases hc : pt = "SEASON" ∧ force = false
  · simp only [if_pos hc]
    cases hf : sliceFind db tid st pt pv with
    | some existing_id => exact ⟨rfl, rfl, rfl, rfl, rfl⟩
    | none => exact ⟨rfl, rfl, rfl, rfl, rfl⟩
  · simp only [if_neg hc]
    exact ⟨rfl, rfl, rfl, rfl, rfl⟩

/-- C5: identity merge is monotonic (COALESCE semantics): resolving a key that
is already stored keeps the player id, overwrites the position reference
unconditionally, merges height, weight and citizenship by COALESCE — a null
input never regresses a stored value, a non-null input wins — and touches no
other player and no id counter. -/
theorem C5_identity_merge_monotonic (db : DB) (k : PKey) (pos : Nat) (h w : Option Int)
    (c : Option String) (a : PlayerAttrs) (hk : db.players k = some a) :
    (upsertPlayer db k pos h w c).1 = a.player_id ∧
    (upsertPlayer db k pos h w c).2.players k =
      some (mkAttrs a.player_id ⟨pos, coal h a.height, coal w a.weight, coal c a.citizenship⟩) ∧
    (h = none → ((upsertPlayer db k pos h w c).2.players k).map (fun x => x.height) =
      some a.height) ∧
    (∀ v, h = some v → ((upsertPlayer db k pos h w c).2.players k).map (fun x => x.height) =
      some (some v)) ∧
    (∀ k2, k2 ≠ k → (upsertPlayer db k pos h w c).2.players k2 = db.players k2) ∧
    (upsertPlayer db k pos h w c).2.next_player_id = db.next_player_id := by
  refine ⟨?_, ?_, ?_, ?_, ?_, ?_⟩
  · simp only [upsertPlayer, hk]
  · simp only [upsertPlayer, hk]
    simp [mkAttrs]
  · intro hh
    subst hh
    simp only [upsertPlayer, hk]
    simp [coal]
  · intro v hh
    subst hh
    simp only [upsertPlayer, hk]
    simp [coal]
  · intro k2 hk2
    simp only [upsertPlayer, hk]
    simp [if_neg hk2]
  · simp only [upsertPlayer, hk]

/-- Witness for C5 on a concrete store: a stored height of 180 survives a
null re-ingest and is updated by 182. -/
theorem C5_identity_merge_monotonic_witness :
    dbP.players ("Ivanov", some 2009, "CSKA", 0) = some attrs180 ∧
    ((upsertPlayer dbP ("Ivanov", some 2009, "CSKA", 0) 1 none none none).2.players
       ("Ivanov", some 2009, "CSKA", 0)).map (fun x => x.height) = some (some 180) ∧
    ((upsertPlayer dbP ("Ivanov", some 2009, "CSKA", 0) 1 (some 182) none none).2.players
       ("Ivanov", some 2009, "CSKA", 0)).map (fun x => x.height) = some (some 182) := by
  refine ⟨rfl, ?_, ?_⟩
  · exact (C5_identity_merge_monotonic dbP (("Ivanov", some 2009, "CSKA", 0) : PKey)
      1 none none none attrs180 rfl).2.2.1 rfl
  · exact (C5_identity_merge_monotonic dbP (("Ivanov", some 2009, "CSKA", 0) : PKey)
      1 (some 182) none none attrs180 rfl).2.2.2.1 182 rfl

/-- C3: SEASON slice resolution with `force_new=false`: an exact
(tournament, stat kind, SEASON, period value) match is updated in place
(timestamp and description only) and returned with `is_new=false`; with no
exact match — season rollover included — a fresh slice is created and
returned with `is_new=true`; `force_new=true` always creates a fresh slice.
In every branch the player store, the id counter and every stored metric
value are untouched. -/
theorem C3_season_slice_resolution (db : DB) (tid : Nat) (st : String) (pv : Option String) :
    (∀ sid0, sliceFind db tid st ("SEASON") pv = some sid0 →
      upsert_slice db tid st ("SEASON") pv false =
        (sliceUpdate db sid0 (st ++ " " ++ "SEASON" ++ " " ++ pvRepr pv ++ " (обновлено)"),
         sid0, false) ∧
      playerFrame db (upsert_slice db tid st ("SEASON") pv false).1) ∧
    (sliceFind db tid st ("SEASON") pv = none →
      upsert_slice db tid st ("SEASON") pv false =
        ((sliceInsert db tid st ("SEASON") pv (st ++ " " ++ "SEASON" ++ " " ++ pvRepr pv)).2,
         db.next_slice_id, true) ∧
      playerFrame db (upsert_slice db tid st ("SEASON") pv false).1) ∧
    (∀ pt2, upsert_slice db tid st pt2 pv true =
      ((sliceInsert db tid st pt2 pv (st ++ " " ++ pt2 ++ " " ++ pvRepr pv)).2,
       db.next_slice_id, true)) := by
  refine ⟨?_, ?_, ?_⟩
  · intro sid0 hf
    refine ⟨?_, upsert_slice_playerFrame db tid st ("SEASON") pv false⟩
    unfold upsert_slice
    rw [if_pos ⟨rfl, rfl⟩, hf]
  · intro hf
    refine ⟨?_, upsert_slice_playerFrame db tid st ("SEASON") pv false⟩
    unfold upsert_slice
    rw [if_pos ⟨rfl, rfl⟩, hf]
    rfl
  · intro pt2
    have hB : ¬(pt2 = "SEASON" ∧ (true : Bool) = false) := by
      intro hcon
      exact Bool.noConfusion hcon.2
    unfold upsert_slice
    rw [if_neg hB]
    rfl

/-- Witness for C3: on a store holding the TOTAL/SEASON/2025 slice, resolving
the same tuple updates it in place and reports `is_new=false`. -/
theorem C3_season_slice_resolution_witness :
    sliceFind dbSlice 0 ("TOTAL") ("SEASON") (some ("2025")) = some 1 ∧
    (upsert_slice dbSlice 0 ("TOTAL") ("SEASON") (some ("2025")) false =
      (sliceUpdate dbSlice 1
        ("TOTAL" ++ " " ++ "SEASON" ++ " " ++ pvRepr (some ("2025")) ++ " (обновлено)"),
       1, false) ∧
     playerFrame dbSlice (upsert_slice dbSlice 0 ("TOTAL") ("SEASON") (some ("2025")) false).1) :=
  ⟨rfl, (C3_season_slice_resolution dbSlice 0 ("TOTAL") (some ("2025"))).1 1 rfl⟩

/-- `load_file` with period kind ROUND always takes the insert branch. -/
theorem load_file_round_eq (db : DB) (rows : List Row) (tid : Nat) (st : String)
    (pv : Option String) (force : Bool) (year : Int) :
    load_file db rows tid st ("ROUND") pv force year =
      ((loadRows (sliceInsert db tid st ("ROUND") pv
          (st ++ " " ++ "ROUND" ++ " " ++ pvRepr pv)).2 rows tid db.next_slice_id year).1,
       { players_loaded := (loadRows (sliceInsert db tid st ("ROUND") pv
            (st ++ " " ++ "ROUND" ++ " " ++ pvRepr pv)).2 rows tid db.next_slice_id year).2.1,
         stats_loaded := (loadRows (sliceInsert db tid st ("ROUND") pv
            (st ++ " " ++ "ROUND" ++ " " ++ pvRepr pv)).2 rows tid db.next_slice_id year).2.2,
         slice_id := db.next_slice_id, is_new_slice := true }) := by
  have hA : ¬(("ROUND" : String) = "SEASON" ∧ pv = none) := by
    intro hcon
    exact absurd hcon.1 (by decide)
  have hB : ¬(("ROUND" : String) = "SEASON" ∧ force = false) := by
    intro hcon
    exact absurd hcon.1 (by decide)
  simp only [load_file, upsert_slice, if_neg hA, if_neg hB]
  rfl

/-- C4: ROUND slices never merge: every ROUND upload creates a brand-new
slice with `is_new=true`; two consecutive ROUND uploads with the same (or
any) round value produce the two distinct identifiers `next` and `next + 1`,
and both slice rows remain in the stored history. -/
theorem C4_round_slices_never_merge (db : DB) (rows1 rows2 : List Row) (tid : Nat)
    (st : String) (pv1 pv2 : Option String) (f1 f2 : Bool) (year : Int) :
    (load_file db rows1 tid st ("ROUND") pv1 f1 year).2.is_new_slice = true ∧
    (load_file db rows1 tid st ("ROUND") pv1 f1 year).2.slice_id = db.next_slice_id ∧
    (load_file (load_file db rows1 tid st ("ROUND") pv1 f1 year).1 rows2 tid st ("ROUND")
        pv2 f2 year).2.is_new_slice = true ∧
    (load_file (load_file db rows1 tid st ("ROUND") pv1 f1 year).1 rows2 tid st ("ROUND")
        pv2 f2 year).2.slice_id = db.next_slice_id + 1 ∧
    (load_file db rows1 tid st ("ROUND") pv1 f1 year).2.slice_id ≠
      (load_file (load_file db rows1 tid st ("ROUND") pv1 f1 year).1 rows2 tid st ("ROUND")
        pv2 f2 year).2.slice_id ∧
    (∃ s2 ∈ (load_file (load_file db rows1 tid st ("ROUND") pv1 f1 year).1 rows2 tid st
        ("ROUND") pv2 f2 year).1.slices, s2.slice_id = db.next_slice_id) ∧
    (∃ s2 ∈ (load_file (load_file db rows1 tid st ("ROUND") pv1 f1 year).1 rows2 tid st
        ("ROUND") pv2 f2 year).1.slices, s2.slice_id = db.next_slice_id + 1) := by
  have fr1 := loadRows_sliceFrame (sliceInsert db tid st ("ROUND") pv1
    (st ++ " " ++ "ROUND" ++ " " ++ pvRepr pv1)).2 rows1 tid db.next_slice_id year
  have e2 : (load_file db rows1 tid st ("ROUND") pv1 f1 year).2.slice_id =
      db.next_slice_id := by rw [load_file_round_eq]
  have e3 : (load_file db rows1 tid st ("ROUND") pv1 f1 year).1.next_slice_id =
      db.next_slice_id + 1 := by
    rw [load_file_round_eq]
    exact fr1.2.2.2.1
  have e4 : (load_file db rows1 tid st ("ROUND") pv1 f1 year).1.slices =
      db.slices ++ [⟨db.next_slice_id, tid, st, "ROUND", pv1, st ++ " " ++ "ROUND" ++ " " ++ pvRepr pv1, db.clock⟩] := by
    rw [load_file_round_eq]
    exact fr1.2.2.1
  have fr2 := loadRows_sliceFrame (sliceInsert (load_file db rows1 tid st ("ROUND") pv1 f1
    year).1 tid st ("ROUND") pv2
    (st ++ " " ++ "ROUND" ++ " " ++ pvRepr pv2)).2 rows2 tid
    (load_file db rows1 tid st ("ROUND") pv1 f1 year).1.next_slice_id year
  have g2 : (load_file (load_file db rows1 tid st ("ROUND") pv1 f1 year).1 rows2 tid st
      ("ROUND") pv2 f2 year).2.slice_id = db.next_slice_id + 1 := by
    rw [load_file_round_eq]
    exact e3
  have g4 : (load_file (load_file db rows1 tid st ("ROUND") pv1 f1 year).1 rows2 tid st
      ("ROUND") pv2 f2 year).1.slices =
      (load_file db rows1 tid st ("ROUND") pv1 f1 year).1.slices ++
      [⟨(load_file db rows1 tid st ("ROUND") pv1 f1 year).1.next_slice_id, tid, st, "ROUND", pv2, st ++ " " ++ "ROUND" ++ " " ++ pvRepr pv2, (load_file db rows1 tid st ("ROUND") pv1 f1 year).1.clock⟩] := by
    rw [load_file_round_eq]
    exact fr2.2.2.1
  refine ⟨by rw [load_file_round_eq], e2, by rw [load_file_round_eq], g2, ?_, ?_, ?_⟩
  · rw [e2, g2]
    omega
  · rw [g4, e4]
    refine ⟨⟨db.next_slice_id, tid, st, "ROUND", pv1, st ++ " " ++ "ROUND" ++ " " ++ pvRepr pv1, db.clock⟩, ?_, rfl⟩
    simp [List.mem_append]
  · rw [g4, e3]
    refine ⟨⟨db.next_slice_id + 1, tid, st, "ROUND", pv2, st ++ " " ++ "ROUND" ++ " " ++ pvRepr pv2, (load_file db rows1 tid st ("ROUND") pv1 f1 year).1.clock⟩, ?_, rfl⟩
    simp [List.mem_append]

/-- C8: Scenario A: loading the Ivanov/Petrov batch for tournament 0, TOTAL,
SEASON, period value 2025 into the empty store returns players_loaded=2 and
stats_loaded=3 with a newly created slice: Ivanov contributes goals and xG,
Petrov contributes only xG, his goals cell "-" being skipped as empty. -/
theorem C8_scenario_a :
    (load_file dbEmpty [rowIvanov, rowPetrov] 0 ("TOTAL") ("SEASON") (some ("2025"))
        false 2026).2 =
      { players_loaded := 2, stats_loaded := 3, slice_id := 1, is_new_slice := true } ∧
    (load_file dbEmpty [rowIvanov, rowPetrov] 0 ("TOTAL") ("SEASON") (some ("2025"))
        false 2026).1.stats (1, 1, "goals") = some ((5 : Int) : ℚ) ∧
    (load_file dbEmpty [rowIvanov, rowPetrov] 0 ("TOTAL") ("SEASON") (some ("2025"))
        false 2026).1.stats (1, 1, "xg") = some (mkRat 32 10) ∧
    (load_file dbEmpty [rowIvanov, rowPetrov] 0 ("TOTAL") ("SEASON") (some ("2025"))
        false 2026).1.stats (2, 1, "xg") = some (mkRat 11 10) ∧
    (load_file dbEmpty [rowIvanov, rowPetrov] 0 ("TOTAL") ("SEASON") (some ("2025"))
        false 2026).1.stats (2, 1, "goals") = none := by
  exact ⟨rfl, rfl, rfl, rfl, rfl⟩

/-- Counterexample to C1 as stated: for the three-row batch with exactly one
unknown position code among two resolvable rows, `load_file` reports
players_loaded = 3, not 2 — the skipped row is still counted. -/
theorem C1_counterexample :
    (load_file dbEmpty [rowIvanov, rowUnknownPos, rowPetrov] 0 ("TOTAL") ("SEASON")
        (some ("2025")) false 2026).2.players_loaded = 3 ∧
    (load_file dbEmpty [rowIvanov, rowUnknownPos, rowPetrov] 0 ("TOTAL") ("SEASON")
        (some ("2025")) false 2026).2.players_loaded ≠ 2 := by
  have h3 : (load_file dbEmpty [rowIvanov, rowUnknownPos, rowPetrov] 0 ("TOTAL") ("SEASON")
      (some ("2025")) false 2026).2.players_loaded = 3 := rfl
  refine ⟨h3, ?_⟩
  rw [h3]
  decide

/-- C1 (amended): a row whose position code matches no entry in the position
store is skipped silently — no exception is raised, no player row is created
and no metric is written for it — and the batch continues and commits; the
row is nonetheless counted in players_loaded, so the described three-row
batch returns players_loaded = 3 (with only the two resolvable rows creating
players, and the unknown-position player absent from the store). -/
theorem C1_unknown_position_amended :
    (∀ (db : DB) (row : Row) (tid sid : Nat) (year : Int) (flds : RowFields),
      rowFields row year = .ok flds →
      posLookup db flds.position_code = none →
      load_player_row db row tid sid year = .ok (db, 0)) ∧
    (load_file dbEmpty [rowIvanov, rowUnknownPos, rowPetrov] 0 ("TOTAL") ("SEASON")
        (some ("2025")) false 2026).2 =
      { players_loaded := 3, stats_loaded := 3, slice_id := 1, is_new_slice := true } ∧
    (load_file dbEmpty [rowIvanov, rowUnknownPos, rowPetrov] 0 ("TOTAL") ("SEASON")
        (some ("2025")) false 2026).1.next_player_id = 3 ∧
    (load_file dbEmpty [rowIvanov, rowUnknownPos, rowPetrov] 0 ("TOTAL") ("SEASON")
        (some ("2025")) false 2026).1.players ("Sidorov", some 2010, "CSKA", 0) = none := by
  refine ⟨?_, rfl, rfl, rfl⟩
  intro db row tid sid year flds h1 h2
  unfold load_player_row
  simp only [h1, h2]

/-- Witness for C1 (amended): the unknown-position row of the scenario parses
fine, its code XX resolves to no position, and loading it leaves the store
untouched with zero metrics written. -/
theorem C1_unknown_position_amended_witness :
    rowFields rowUnknownPos 2026 = .ok fldsSidorov ∧
    posLookup dbEmpty (fldsSidorov.position_code) = none ∧
    load_player_row dbEmpty rowUnknownPos 0 1 2026 = .ok (dbEmpty, 0) :=
  ⟨rfl, rfl,
   C1_unknown_position_amended.1 dbEmpty rowUnknownPos 0 1 2026 fldsSidorov rfl rfl⟩

/-- The metric codes of the catalog are pairwise distinct. -/
theorem mmCodesNodup : (METRICS_MAPPING.map (fun mc => mc.1)).Nodup := by decide

theorem lastVal_not_mem : ∀ (W : List (SKey × ℚ)) (k : SKey),
    k ∉ W.map (fun w => w.1) → lastVal W k = none := by
  intro W
  induction W with
  | nil => intro k _; rfl
  | cons p t ih =>
    intro k hk
    rw [lastVal_cons]
    have h1 : k ∉ t.map (fun w => w.1) := fun hin => hk (List.mem_cons_of_mem _ hin)
    have h2 : p.1 ≠ k := fun he => hk (by rw [← he]; exact List.mem_cons_self _ _)
    rw [ih k h1, if_neg h2]
    rfl

theorem lastVal_unique : ∀ (W : List (SKey × ℚ)) (k : SKey) (v : ℚ),
    (k, v) ∈ W → (∀ v2, (k, v2) ∈ W → v2 = v) → lastVal W k = some v := by
  intro W
  induction W with
  | nil =>
    intro k v hv _
    exact absurd hv (List.not_mem_nil _)
  | cons p t ih =>
    intro k v hv huniq
    rw [lastVal_cons]
    by_cases hmem : k ∈ t.map (fun w => w.1)
    · obtain ⟨w, hw, hwk⟩ := List.mem_map.mp hmem
      have hw2 : (k, w.2) ∈ t := by
        have he : w = (k, w.2) := Prod.ext hwk rfl
        rw [← he]
        exact hw
      have hveq : w.2 = v := huniq w.2 (List.mem_cons_of_mem _ hw2)
      have hkv : (k, v) ∈ t := by rw [← hveq]; exact hw2
      rw [ih k v hkv (fun v2 hv2 => huniq v2 (List.mem_cons_of_mem _ hv2))]
      rfl
    · have ht : lastVal t k = none := lastVal_not_mem t k hmem
      rw [ht]
      rcases List.mem_cons.mp hv with hp | htl
      · rw [← hp]
        simp [coal]
      · exact absurd (List.mem_map.mpr ⟨(k, v), htl, rfl⟩) hmem

/-- C6: per-metric skip semantics: for a catalog metric whose column is
present and non-empty but whose cell either fails numeric coercion or
coerces to a non-finite value, nothing is written for that metric (its stored
value is untouched), every other metric of the row with a storable value is
still written, and the returned count equals the number of storable metrics —
the skipped metric contributing nothing. -/
theorem C6_metric_coercion_skips (db : DB) (row : Row) (pid sid : Nat)
    (code label : String) (cell : Cell)
    (hmem : (code, label) ∈ METRICS_MAPPING)
    (hfind : row.find label = some cell)
    (hbad : (∃ s, cell = Cell.str s ∧ pyParseFloat s = none) ∨
            cell = Cell.num FloatVal.nan ∨ cell = Cell.num FloatVal.inf ∨
            cell = Cell.num FloatVal.ninf) :
    (writeMetrics db row pid sid).1.stats (pid, sid, code) = db.stats (pid, sid, code) ∧
    (∀ code2 label2 v, (code2, label2) ∈ METRICS_MAPPING →
      metricAction row label2 = some v →
      (writeMetrics db row pid sid).1.stats (pid, sid, code2) = some v) ∧
    (writeMetrics db row pid sid).2 = (rowWrites row).length ∧
    code ∉ (rowWrites row).map (fun w => w.1) := by
  have hact : metricAction row label = none := by
    unfold metricAction
    rw [hfind]
    rcases hbad with ⟨s, hcs, hps⟩ | hc | hc | hc
    · subst hcs
      by_cases hd : Cell.str s = Cell.str ("-")
      · simp [isnaCell, hd]
      · simp [isnaCell, hd, hps]
    · subst hc
      simp [isnaCell]
    · subst hc
      simp [isnaCell]
    · subst hc
      simp [isnaCell]
  have hnotin : code ∉ (rowWrites row).map (fun w => w.1) := by
    intro hin
    obtain ⟨w, hw, hwc⟩ := List.mem_map.mp hin
    obtain ⟨mc, hmc, hmcw⟩ := List.mem_filterMap.mp hw
    cases hma : metricAction row mc.2 with
    | none =>
      rw [hma] at hmcw
      exact Option.noConfusion hmcw
    | some u =>
      rw [hma] at hmcw
      have hw2 : (mc.1, u) = w := Option.some.inj hmcw
      have hfst : mc.1 = code := by rw [← hwc, ← hw2]
      have hmc2 : mc = (code, label) :=
        List.inj_on_of_nodup_map mmCodesNodup hmc hmem hfst
      rw [hmc2, hact] at hma
      exact Option.noConfusion hma
  refine ⟨?_, ?_, ?_, hnotin⟩
  · rw [writeMetrics_spec]
    show applySets db.stats _ (pid, sid, code) = db.stats (pid, sid, code)
    rw [applySets_eval]
    have hlv : lastVal ((rowWrites row).map (fun w => ((pid, sid, w.1), w.2)))
        (pid, sid, code) = none := by
      apply lastVal_not_mem
      rw [List.map_map]
      intro hin
      obtain ⟨w, hw, hweq⟩ := List.mem_map.mp hin
      exact hnotin (List.mem_map.mpr ⟨w, hw, congrArg (fun t => t.2.2) hweq⟩)
    rw [hlv]
    rfl
  · intro code2 label2 v hmem2 hact2
    rw [writeMetrics_spec]
    show applySets db.stats _ (pid, sid, code2) = some v
    rw [applySets_eval]
    have hlv : lastVal ((rowWrites row).map (fun w => ((pid, sid, w.1), w.2)))
        (pid, sid, code2) = some v := by
      apply lastVal_unique
      · apply List.mem_map.mpr
        refine ⟨(code2, v), ?_, rfl⟩
        apply List.mem_filterMap.mpr
        refine ⟨(code2, label2), hmem2, ?_⟩
        rw [hact2]
        rfl
      · intro v2 hv2
        obtain ⟨w, hw, hweq⟩ := List.mem_map.mp hv2
        have hwc : w.1 = code2 := congrArg (fun t => t.1.2.2) hweq
        have hwv : w.2 = v2 := congrArg (fun t => t.2) hweq
        obtain ⟨mc, hmc, hmcw⟩ := List.mem_filterMap.mp hw
        cases hma : metricAction row mc.2 with
        | none =>
          rw [hma] at hmcw
          exact Option.noConfusion hmcw
        | some u =>
          rw [hma] at hmcw
          have hw2 : (mc.1, u) = w := Option.some.inj hmcw
          have hfst : mc.1 = code2 := by rw [← hwc, ← hw2]
          have hmc2 : mc = (code2, label2) :=
            List.inj_on_of_nodup_map mmCodesNodup hmc hmem2 hfst
          rw [hmc2, hact2] at hma
          have hu : v = u := Option.some.inj hma
          rw [← hwv, ← hw2]
          exact hu.symm
    rw [hlv]
    rfl
  · rw [writeMetrics_spec]

/-- Witness for C6: in Scenario A's second row the goals cell is a dash and
is skipped, while the xG value is still written and counted. -/
theorem C6_metric_coercion_skips_witness :
    ((("goals", "Голы") : String × String) ∈ METRICS_MAPPING ∧
     Row.find rowBadMetric ("Голы") = some (Cell.str "x2") ∧
     ((∃ s, Cell.str "x2" = Cell.str s ∧ pyParseFloat s = none) ∨
      Cell.str "x2" = Cell.num FloatVal.nan ∨ Cell.str "x2" = Cell.num FloatVal.inf ∨
      Cell.str "x2" = Cell.num FloatVal.ninf)) ∧
    (writeMetrics dbEmpty rowBadMetric 1 1).1.stats (1, 1, "goals") =
      dbEmpty.stats (1, 1, "goals") ∧
    (writeMetrics dbEmpty rowBadMetric 1 1).1.stats (1, 1, "xg") = some (mkRat 11 10) ∧
    (writeMetrics dbEmpty rowBadMetric 1 1).2 = (rowWrites rowBadMetric).length := by
  have h := C6_metric_coercion_skips dbEmpty rowBadMetric 1 1 ("goals") ("Голы")
    (Cell.str "x2") (by decide) rfl (Or.inl ⟨"x2", rfl, rfl⟩)
  exact ⟨⟨by decide, rfl, Or.inl ⟨"x2", rfl, rfl⟩⟩, h.1,
    h.2.1 ("xg") ("xG (ожидаемые голы)") (mkRat 11 10) (by decide) rfl, h.2.2.1⟩

theorem upsertPlayer_fst (db : DB) (k : PKey) (pos : Nat) (h w : Option Int)
    (c : Option String) : (upsertPlayer db k pos h w c).1 = pidAt db k := by
  unfold upsertPlayer pidAt
  cases db.players k <;> rfl

theorem statsFold_eq (sid pid : Nat) :
    ∀ (W : List (String × ℚ)) (db : DB),
      W.foldl (fun d w => upsertStat d pid sid w.1 w.2) db =
        { db with stats := applySets db.stats (W.map (fun w => ((pid, sid, w.1), w.2))) } := by
  intro W
  induction W with
  | nil => intro db; rfl
  | cons p t ih =>
    intro db
    simp only [List.foldl_cons, List.map_cons]
    rw [ih]
    rfl

theorem upsertPlayer_stats (db : DB) (k : PKey) (pos : Nat) (h w : Option Int)
    (c : Option String) : (upsertPlayer db k pos h w c).2.stats = db.stats := by
  unfold upsertPlayer
  cases db.players k <;> rfl

/-- `applyAct` spelled out: the player upsert followed by a pure stats
override. -/
theorem applyAct_eq (sid : Nat) (db : DB) (a : RowAct) :
    applyAct sid db a =
      { (upsertPlayer db a.key a.position_id a.height a.weight a.citizenship).2 with
        stats := applySets db.stats (actWrites db sid a) } := by
  simp only [applyAct]
  rw [statsFold_eq, upsertPlayer_fst, upsertPlayer_stats]
  rfl

theorem applyAct_sliceFrame (sid : Nat) (db : DB) (a : RowAct) :
    sliceFrame db (applyAct sid db a) := by
  rw [applyAct_eq]
  exact sliceFrame_trans
    (upsertPlayer_sliceFrame db a.key a.position_id a.height a.weight a.citizenship)
    ⟨rfl, rfl, rfl, rfl, rfl⟩

theorem fold_applyAct_sliceFrame (sid : Nat) :
    ∀ (A : List RowAct) (db : DB), sliceFrame db (A.foldl (applyAct sid) db) := by
  intro A
  induction A with
  | nil => intro db; exact sliceFrame_rfl db
  | cons a t ih =>
    intro db
    simp only [List.foldl_cons]
    exact sliceFrame_trans (applyAct_sliceFrame sid db a) (ih (applyAct sid db a))

theorem applyAct_players_same (sid : Nat) (db : DB) (a : RowAct) :
    (applyAct sid db a).players a.key =
      some (mkAttrs (pidAt db a.key) (qstep (baseOf (db.players a.key)) (avOfAct a))) := by
  rw [applyAct_eq]
  show (upsertPlayer db a.key a.position_id a.height a.weight a.citizenship).2.players a.key = _
  unfold upsertPlayer pidAt baseOf qstep avOfAct avOfAttrs mkAttrs
  cases db.players a.key with
  | some b => simp
  | none => simp [coal_none_right]

theorem applyAct_players_other (sid : Nat) (db : DB) (a : RowAct) (k : PKey)
    (hk : k ≠ a.key) : (applyAct sid db a).players k = db.players k := by
  rw [applyAct_eq]
  show (upsertPlayer db a.key a.position_id a.height a.weight a.citizenship).2.players k = _
  unfold upsertPlayer
  cases db.players a.key with
  | some b => simp [if_neg hk]
  | none => simp [if_neg hk]

theorem applyAct_next_present (sid : Nat) (db : DB) (a : RowAct)
    (hp : (db.players a.key).isSome) :
    (applyAct sid db a).next_player_id = db.next_player_id := by
  rw [applyAct_eq]
  show (upsertPlayer db a.key a.position_id a.height a.weight a.citizenship).2.next_player_id = _
  unfold upsertPlayer
  cases hdb : db.players a.key with
  | some b => rfl
  | none =>
    rw [hdb] at hp
    exact absurd hp (by simp)

theorem applyAct_present_mono (sid : Nat) (db : DB) (a : RowAct) (k : PKey)
    (hp : (db.players k).isSome) : ((applyAct sid db a).players k).isSome := by
  by_cases hk : k = a.key
  · subst hk
    rw [applyAct_players_same]
    rfl
  · rw [applyAct_players_other sid db a k hk]
    exact hp

theorem applyAct_present_own (sid : Nat) (db : DB) (a : RowAct) :
    ((applyAct sid db a).players a.key).isSome := by
  rw [applyAct_players_same]
  rfl

theorem pidAt_eq_of_players {db : DB} {k : PKey} {p : Nat} {v : AttrsV}
    (h : db.players k = some (mkAttrs p v)) : pidAt db k = p := by
  unfold pidAt
  rw [h]
  rfl

theorem applyAct_pid_own (sid : Nat) (db : DB) (a : RowAct) :
    pidAt (applyAct sid db a) a.key = pidAt db a.key :=
  pidAt_eq_of_players (applyAct_players_same sid db a)

theorem applyAct_pid_present (sid : Nat) (db : DB) (a : RowAct) (k : PKey)
    (hp : (db.players k).isSome) :
    pidAt (applyAct sid db a) k = pidAt db k := by
  by_cases hk : k = a.key
  · subst hk
    exact applyAct_pid_own sid db a
  · unfold pidAt
    rw [applyAct_players_other sid db a k hk]
    cases hdb : db.players k with
    | some b => rfl
    | none =>
      rw [hdb] at hp
      exact absurd hp (by simp)

theorem fold_present_mono (sid : Nat) :
    ∀ (A : List RowAct) (db : DB) (k : PKey), (db.players k).isSome →
      ((A.foldl (applyAct sid) db).players k).isSome := by
  intro A
  induction A with
  | nil => intro db k hp; exact hp
  | cons a t ih =>
    intro db k hp
    simp only [List.foldl_cons]
    exact ih _ k (applyAct_present_mono sid db a k hp)

theorem fold_present_mem (sid : Nat) :
    ∀ (A : List RowAct) (db : DB) (a : RowAct), a ∈ A →
      ((A.foldl (applyAct sid) db).players a.key).isSome := by
  intro A
  induction A with
  | nil =>
    intro db a ha
    exact absurd ha (List.not_mem_nil _)
  | cons b t ih =>
    intro db a ha
    simp only [List.foldl_cons]
    rcases List.mem_cons.mp ha with hb | ht
    · subst hb
      exact fold_present_mono sid t _ a.key (applyAct_present_own sid db a)
    · exact ih _ a ht

theorem fold_pid_present (sid : Nat) :
    ∀ (A : List RowAct) (db : DB) (k : PKey), (db.players k).isSome →
      pidAt (A.foldl (applyAct sid) db) k = pidAt db k := by
  intro A
  induction A with
  | nil => intro db k _; rfl
  | cons a t ih =>
    intro db k hp
    simp only [List.foldl_cons]
    rw [ih _ k (applyAct_present_mono sid db a k hp), applyAct_pid_present sid db a k hp]

theorem fold_next_stable (sid : Nat) :
    ∀ (A : List RowAct) (db : DB), (∀ a ∈ A, (db.players a.key).isSome) →
      (A.foldl (applyAct sid) db).next_player_id = db.next_player_id := by
  intro A
  induction A with
  | nil => intro db _; rfl
  | cons a t ih =>
    intro db hp
    simp only [List.foldl_cons]
    rw [ih _ (fun b hb => applyAct_present_mono sid db a b.key (hp b (List.mem_cons_of_mem _ hb))),
        applyAct_next_present sid db a (hp a (List.mem_cons_self _ _))]

theorem attrsVExt {x y : AttrsV} (h1 : x.position_id = y.position_id)
    (h2 : x.height = y.height) (h3 : x.weight = y.weight)
    (h4 : x.citizenship = y.citizenship) : x = y := by
  cases x
  cases y
  cases h1
  cases h2
  cases h3
  cases h4
  rfl

theorem avOfAttrs_mk (p : Nat) (v : AttrsV) : avOfAttrs (mkAttrs p v) = v := rfl

theorem qchain_cons (v : AttrsV) (L : List AttrsV) (b : AttrsV) :
    qchain (v :: L) b = qchain L (qstep b v) := rfl

theorem qchain_pos_fold :
    ∀ (L : List AttrsV) (b : AttrsV),
      (qchain L b).position_id = L.foldl (fun _ v => v.position_id) b.position_id := by
  intro L
  induction L with
  | nil => intro b; rfl
  | cons v t ih =>
    intro b
    simp only [qchain, List.foldl_cons] at *
    exact ih (qstep b v)

theorem qchain_height_fold :
    ∀ (L : List AttrsV) (b : AttrsV),
      (qchain L b).height = L.foldl (fun acc v => coal v.height acc) b.height := by
  intro L
  induction L with
  | nil => intro b; rfl
  | cons v t ih =>
    intro b
    simp only [qchain, List.foldl_cons] at *
    exact ih (qstep b v)

theorem qchain_weight_fold :
    ∀ (L : List AttrsV) (b : AttrsV),
      (qchain L b).weight = L.foldl (fun acc v => coal v.weight acc) b.weight := by
  intro L
  induction L with
  | nil => intro b; rfl
  | cons v t ih =>
    intro b
    simp only [qchain, List.foldl_cons] at *
    exact ih (qstep b v)

theorem qchain_cit_fold :
    ∀ (L : List AttrsV) (b : AttrsV),
      (qchain L b).citizenship = L.foldl (fun acc v => coal v.citizenship acc) b.citizenship := by
  intro L
  induction L with
  | nil => intro b; rfl
  | cons v t ih =>
    intro b
    simp only [qchain, List.foldl_cons] at *
    exact ih (qstep b v)

/-- Replaying a left fold of COALESCE merges over its own result changes
nothing. -/
theorem foldl_coal_absorb {α β : Type} (g : α → Option β) (L : List α) (x : Option β) :
    L.foldl (fun acc z => coal (g z) acc) (L.foldl (fun acc z => coal (g z) acc) x) =
      L.foldl (fun acc z => coal (g z) acc) x := by
  have h1 := foldl_coal_split g L x
  have h2 := foldl_coal_split g L (L.foldl (fun acc z => coal (g z) acc) x)
  rw [h2, h1, coal_self_absorb]

/-- Replaying a COALESCE merge chain over its own result is absorbed: the
position is overwritten by the last merge anyway, and the nullable columns
satisfy `coal h (coal h b) = coal h b`. -/
theorem qchain_absorb (L : List AttrsV) (b : AttrsV) :
    qchain L (qchain L b) = qchain L b := by
  cases L with
  | nil => rfl
  | cons v t =>
    apply attrsVExt
    · rw [qchain_pos_fold, qchain_pos_fold]
      simp only [List.foldl_cons]
    · rw [qchain_height_fold, qchain_height_fold]
      exact foldl_coal_absorb AttrsV.height (v :: t) b.height
    · rw [qchain_weight_fold, qchain_weight_fold]
      exact foldl_coal_absorb AttrsV.weight (v :: t) b.weight
    · rw [qchain_cit_fold, qchain_cit_fold]
      exact foldl_coal_absorb AttrsV.citizenship (v :: t) b.citizenship

/-- Pointwise characterization of the act fold on the player store: a key
touched by no act keeps its stored row; a touched key holds the COALESCE
merge chain of its acts over the starting row, under the id the fold
resolved. -/
theorem fold_players_point (sid : Nat) :
    ∀ (A : List RowAct) (db : DB) (k : PKey),
      (A.filter (fun b => b.key = k) = [] ∧
        (A.foldl (applyAct sid) db).players k = db.players k) ∨
      (A.filter (fun b => b.key = k) ≠ [] ∧
        (A.foldl (applyAct sid) db).players k =
          some (mkAttrs (pidAt (A.foldl (applyAct sid) db) k)
            (qchain ((A.filter (fun b => b.key = k)).map avOfAct)
              (baseOf (db.players k))))) := by
  intro A
  induction A with
  | nil => intro db k; exact Or.inl ⟨rfl, rfl⟩
  | cons a t ih =>
    intro db k
    by_cases hak : a.key = k
    · subst hak
      have hfc : List.filter (fun b => decide (b.key = a.key)) (a :: t) =
          a :: List.filter (fun b => decide (b.key = a.key)) t := by
        simp
      rcases ih (applyAct sid db a) a.key with ⟨hf, he⟩ | ⟨hf, he⟩
      · have hres : ((a :: t).foldl (applyAct sid) db).players a.key =
            some (mkAttrs (pidAt db a.key)
              (qstep (baseOf (db.players a.key)) (avOfAct a))) := by
          simp only [List.foldl_cons]
          rw [he, applyAct_players_same]
        refine Or.inr ⟨?_, ?_⟩
        · rw [hfc]
          exact List.cons_ne_nil _ _
        · rw [hfc, hf]
          simp only [List.foldl_cons] at hres ⊢
          rw [hres, pidAt_eq_of_players hres]
          rfl
      · refine Or.inr ⟨?_, ?_⟩
        · rw [hfc]
          exact List.cons_ne_nil _ _
        · rw [applyAct_players_same] at he
          simp only [baseOf, avOfAttrs_mk] at he
          rw [hfc]
          simp only [List.foldl_cons, List.map_cons]
          rw [qchain_cons]
          exact he
    · have hk2 : k ≠ a.key := fun h => hak h.symm
      have hfc : List.filter (fun b => decide (b.key = k)) (a :: t) =
          List.filter (fun b => decide (b.key = k)) t := by
        simp [hak]
      rcases ih (applyAct sid db a) k with ⟨hf, he⟩ | ⟨hf, he⟩
      · refine Or.inl ⟨?_, ?_⟩
        · rw [hfc]
          exact hf
        · simp only [List.foldl_cons]
          rw [he, applyAct_players_other sid db a k hk2]
      · refine Or.inr ⟨?_, ?_⟩
        · rw [hfc]
          exact hf
        · rw [applyAct_players_other sid db a k hk2] at he
          rw [hfc]
          simp only [List.foldl_cons]
          exact he

/-- The act fold's statistics store is the starting store overridden by the
write trace. -/
theorem fold_stats (sid : Nat) :
    ∀ (A : List RowAct) (db : DB),
      (A.foldl (applyAct sid) db).stats = applySets db.stats (wseq sid db A) := by
  intro A
  induction A with
  | nil => intro db; rfl
  | cons a t ih =>
    intro db
    simp only [List.foldl_cons, wseq]
    rw [ih (applyAct sid db a), applySets_append]
    rw [applyAct_eq]

/-- The evolving-state write trace coincides with the trace resolved against
the final state: an act's id is assigned at its own step and never changes
afterwards. -/
theorem wseq_canon (sid : Nat) :
    ∀ (A : List RowAct) (db : DB),
      wseq sid db A = wcanon (A.foldl (applyAct sid) db) sid A := by
  intro A
  induction A with
  | nil => intro db; rfl
  | cons a t ih =>
    intro db
    have hpid : pidAt (t.foldl (applyAct sid) (applyAct sid db a)) a.key = pidAt db a.key :=
      (fold_pid_present sid t (applyAct sid db a) a.key (applyAct_present_own sid db a)).trans
        (applyAct_pid_own sid db a)
    simp only [wseq, List.foldl_cons, wcanon, List.map_cons, List.flatten_cons]
    rw [ih (applyAct sid db a)]
    simp only [wcanon]
    congr 1
    simp only [actWrites, hpid]

/-- The canonical write trace only reads the ids of its acts' keys. -/
theorem wcanon_congr (sid : Nat) (y z : DB) (A : List RowAct)
    (h : ∀ a ∈ A, pidAt z a.key = pidAt y a.key) :
    wcanon z sid A = wcanon y sid A := by
  unfold wcanon
  exact congrArg List.flatten (List.map_congr_left (fun a ha => by
    simp only [actWrites, h a ha]))

/-- Replaying the whole act sequence over its own result changes none of the
stores the row loop touches: player rows re-merge into themselves, no fresh
ids are drawn, and every statistic write repeats an identical fact. -/
theorem fold_replay (sid : Nat) (A : List RowAct) (db : DB) :
    (A.foldl (applyAct sid) (A.foldl (applyAct sid) db)).players =
      (A.foldl (applyAct sid) db).players ∧
    (A.foldl (applyAct sid) (A.foldl (applyAct sid) db)).next_player_id =
      (A.foldl (applyAct sid) db).next_player_id ∧
    (A.foldl (applyAct sid) (A.foldl (applyAct sid) db)).stats =
      (A.foldl (applyAct sid) db).stats := by
  refine ⟨?_, ?_, ?_⟩
  · funext k
    rcases fold_players_point sid A (A.foldl (applyAct sid) db) k with ⟨hf2, he2⟩ | ⟨hf2, he2⟩
    · exact he2
    · rcases fold_players_point sid A db k with ⟨hf1, he1⟩ | ⟨hf1, he1⟩
      · exact absurd hf1 hf2
      · rw [he1] at he2
        simp only [baseOf, avOfAttrs_mk] at he2
        rw [qchain_absorb] at he2
        rw [fold_pid_present sid A (A.foldl (applyAct sid) db) k (by rw [he1]; rfl)] at he2
        exact he2.trans he1.symm
  · exact fold_next_stable sid A (A.foldl (applyAct sid) db)
      (fun a ha => fold_present_mem sid A db a ha)
  · have h1 : (A.foldl (applyAct sid) db).stats =
        applySets db.stats (wcanon (A.foldl (applyAct sid) db) sid A) := by
      rw [fold_stats sid A db, wseq_canon sid A db]
    have h2 := fold_stats sid A (A.foldl (applyAct sid) db)
    have h3 := wseq_canon sid A (A.foldl (applyAct sid) db)
    have h4 : wcanon (A.foldl (applyAct sid) (A.foldl (applyAct sid) db)) sid A =
        wcanon (A.foldl (applyAct sid) db) sid A :=
      wcanon_congr sid (A.foldl (applyAct sid) db) (A.foldl (applyAct sid) (A.foldl (applyAct sid) db)) A
        (fun a ha => fold_pid_present sid A (A.foldl (applyAct sid) db) a.key
          (fold_present_mem sid A db a ha))
    rw [h2, h3, h4, h1, applySets_replay, ← h1]

/-- One act reads and writes only the player store, the id counter and the
statistics store. -/
theorem applyAct_core (sid : Nat) (a : RowAct) {d d2 : DB} (hp : d2.players = d.players)
    (hn : d2.next_player_id = d.next_player_id) (hs : d2.stats = d.stats) :
    (applyAct sid d2 a).players = (applyAct sid d a).players ∧
    (applyAct sid d2 a).next_player_id = (applyAct sid d a).next_player_id ∧
    (applyAct sid d2 a).stats = (applyAct sid d a).stats := by
  have hpid : pidAt d2 a.key = pidAt d a.key := by
    unfold pidAt
    rw [hp, hn]
  rw [applyAct_eq, applyAct_eq]
  refine ⟨?_, ?_, ?_⟩
  · show (upsertPlayer d2 a.key a.position_id a.height a.weight a.citizenship).2.players =
      (upsertPlayer d a.key a.position_id a.height a.weight a.citizenship).2.players
    unfold upsertPlayer
    rw [hp, hn]
    cases d.players a.key <;> rfl
  · show (upsertPlayer d2 a.key a.position_id a.height a.weight a.citizenship).2.next_player_id =
      (upsertPlayer d a.key a.position_id a.height a.weight a.citizenship).2.next_player_id
    unfold upsertPlayer
    rw [hp, hn]
    cases d.players a.key <;> rfl
  · show applySets d2.stats (actWrites d2 sid a) = applySets d.stats (actWrites d sid a)
    rw [hs]
    unfold actWrites
    simp only [hpid]

/-- The act fold is congruent in the stores the row loop touches. -/
theorem fold_core (sid : Nat) :
    ∀ (A : List RowAct) {d d2 : DB}, d2.players = d.players →
      d2.next_player_id = d.next_player_id → d2.stats = d.stats →
      ((A.foldl (applyAct sid) d2).players = (A.foldl (applyAct sid) d).players ∧
       (A.foldl (applyAct sid) d2).next_player_id = (A.foldl (applyAct sid) d).next_player_id ∧
       (A.foldl (applyAct sid) d2).stats = (A.foldl (applyAct sid) d).stats) := by
  intro A
  induction A with
  | nil => intro d d2 hp hn hs; exact ⟨hp, hn, hs⟩
  | cons a t ih =>
    intro d d2 hp hn hs
    simp only [List.foldl_cons]
    obtain ⟨hp2, hn2, hs2⟩ := applyAct_core sid a hp hn hs
    exact ih hp2 hn2 hs2

/-- A row whose effect is an act runs `_load_player_row` to exactly that
act's application. -/
theorem load_player_row_act {db : DB} {row : Row} {tid : Nat} {year : Int}
    {P : List (String × Nat)} (hP : db.positions = P) {a : RowAct}
    (ha : rowAct P row tid year = some a) (sid : Nat) :
    load_player_row db row tid sid year = .ok (applyAct sid db a, a.writes.length) := by
  cases hrf : rowFields row year with
  | error e =>
    simp only [rowAct, hrf] at ha
    exact Option.noConfusion ha
  | ok f =>
    simp only [rowAct, hrf] at ha
    cases hfd : (P.find? (fun p => p.1 = f.position_code)).map (fun p => p.2) with
    | none =>
      simp only [hfd] at ha
      exact Option.noConfusion ha
    | some pid =>
      simp only [hfd] at ha
      by_cases hz : pid = 0
      · rw [if_pos hz] at ha
        exact Option.noConfusion ha
      · rw [if_neg hz] at ha
        have ha2 := Option.some.inj ha
        subst ha2
        have hpl : posLookup db f.position_code = some pid := by
          unfold posLookup
          rw [hP]
          exact hfd
        simp only [load_player_row, hrf, hpl]
        rw [if_neg hz]
        rw [writeMetrics_spec, applyAct_eq]
        rw [upsertPlayer_stats, upsertPlayer_fst]
        rfl

/-- A row with no effect leaves the store untouched: it either returns the
zero count (unknown position) or raises (and the per-row handler skips it). -/
theorem load_player_row_skip {db : DB} {row : Row} {tid : Nat} {year : Int}
    {P : List (String × Nat)} (hP : db.positions = P)
    (ha : rowAct P row tid year = none) (sid : Nat) :
    load_player_row db row tid sid year = .ok (db, 0) ∨
      ∃ e, load_player_row db row tid sid year = .error e := by
  cases hrf : rowFields row year with
  | error e =>
    refine Or.inr ⟨e, ?_⟩
    simp only [load_player_row, hrf]
  | ok f =>
    simp only [rowAct, hrf] at ha
    cases hfd : (P.find? (fun p => p.1 = f.position_code)).map (fun p => p.2) with
    | none =>
      have hpl : posLookup db f.position_code = none := by
        unfold posLookup
        rw [hP]
        exact hfd
      refine Or.inl ?_
      simp only [load_player_row, hrf, hpl]
    | some pid =>
      simp only [hfd] at ha
      by_cases hz : pid = 0
      · have hpl : posLookup db f.position_code = some pid := by
          unfold posLookup
          rw [hP]
          exact hfd
        refine Or.inl ?_
        simp only [load_player_row, hrf, hpl]
        rw [if_pos hz]
      · rw [if_neg hz] at ha
        exact Option.noConfusion ha

/-- The per-row loop, decomposed: its state effect is the fold of the rows'
acts, computed against the (loop-invariant) position table. -/
theorem loadRows_fold_decomp (tid sid : Nat) (year : Int) (P : List (String × Nat)) :
    ∀ (rows : List Row) (acc : DB × Nat × Nat), acc.1.positions = P →
      (rows.foldl (fun acc2 row =>
        match load_player_row acc2.1 row tid sid year with
        | .ok r => (r.1, acc2.2.1 + 1, acc2.2.2 + r.2)
        | .error _ => acc2) acc).1 =
      (rows.filterMap (fun row => rowAct P row tid year)).foldl (applyAct sid) acc.1 := by
  intro rows
  induction rows with
  | nil => intro acc _; rfl
  | cons row rest ih =>
    intro acc hP
    simp only [List.foldl_cons, List.filterMap_cons]
    cases hact : rowAct P row tid year with
    | some a =>
      have hlpr := load_player_row_act hP hact sid
      simp only [hlpr, List.foldl_cons]
      exact ih (applyAct sid acc.1 a, acc.2.1 + 1, acc.2.2 + a.writes.length)
        ((applyAct_sliceFrame sid acc.1 a).1.trans hP)
    | none =>
      rcases load_player_row_skip hP hact sid with hok | ⟨e, herr⟩
      · simp only [hok]
        exact ih (acc.1, acc.2.1 + 1, acc.2.2 + 0) hP
      · simp only [herr]
        exact ih acc hP

/-- The per-row loop of `load_file` equals the act fold. -/
theorem loadRows_decomp (db : DB) (rows : List Row) (tid sid : Nat) (year : Int)
    (P : List (String × Nat)) (hP : db.positions = P) :
    (loadRows db rows tid sid year).1 =
      (rows.filterMap (fun row => rowAct P row tid year)).foldl (applyAct sid) db :=
  loadRows_fold_decomp tid sid year P rows (db, 0, 0) hP

/-- The default-season lookup reads only the tournament table. -/
theorem get_tournament_season_congr {db db2 : DB} (h : db2.tournaments = db.tournaments)
    (tid : Nat) (year : Int) :
    get_tournament_season db2 tid year = get_tournament_season db tid year := by
  unfold get_tournament_season
  rw [h]

/-- The slice search reads only the slice table. -/
theorem sliceFind_congr {db db2 : DB} (h : db2.slices = db.slices) (tid : Nat)
    (st pt : String) (pv : Option String) :
    sliceFind db2 tid st pt pv = sliceFind db tid st pt pv := by
  unfold sliceFind
  rw [h]

/-- The in-place slice update changes no column the slice search reads. -/
theorem sliceFind_update (db : DB) (e : Nat) (d : String) (tid : Nat) (st pt : String)
    (pv : Option String) :
    sliceFind (sliceUpdate db e d) tid st pt pv = sliceFind db tid st pt pv := by
  show ((db.slices.map (fun s => if s.slice_id = e then
      { s with uploaded_at := db.clock, description := d } else s)).find?
        (sliceMatches tid st pt pv)).map (fun s => s.slice_id) =
    (db.slices.find? (sliceMatches tid st pt pv)).map (fun s => s.slice_id)
  rw [List.find?_map, Option.map_map]
  have h1 : (sliceMatches tid st pt pv ∘ fun s => if s.slice_id = e then
      { s with uploaded_at := db.clock, description := d } else s) =
        sliceMatches tid st pt pv := by
    funext s
    simp only [Function.comp_apply]
    by_cases hse : s.slice_id = e
    · rw [if_pos hse]
      rfl
    · rw [if_neg hse]
  have h2 : ((fun s => s.slice_id) ∘ fun s => if s.slice_id = e then
      { s with uploaded_at := db.clock, description := d } else s) =
        (fun (s : SliceRow) => s.slice_id) := by
    funext s
    simp only [Function.comp_apply]
    by_cases hse : s.slice_id = e
    · rw [if_pos hse]
    · rw [if_neg hse]
  rw [h1, h2]

/-- A freshly inserted slice is found by the search it was inserted for, when
no earlier row matched. -/
theorem sliceFind_insert_self (db : DB) (tid : Nat) (st pt : String) (s d : String)
    (hnone : sliceFind db tid st pt (some s) = none) :
    sliceFind (sliceInsert db tid st pt (some s) d).2 tid st pt (some s) =
      some db.next_slice_id := by
  have hfind : db.slices.find? (sliceMatches tid st pt (some s)) = none := by
    cases hf : db.slices.find? (sliceMatches tid st pt (some s)) with
    | none => rfl
    | some r =>
      unfold sliceFind at hnone
      rw [hf] at hnone
      exact Option.noConfusion hnone
  show ((db.slices ++ [(⟨db.next_slice_id, tid, st, pt, some s, d, db.clock⟩ : SliceRow)]).find?
      (sliceMatches tid st pt (some s))).map (fun r => r.slice_id) = some db.next_slice_id
  rw [List.find?_append, hfind]
  have hp : sliceMatches tid st pt (some s)
      (⟨db.next_slice_id, tid, st, pt, some s, d, db.clock⟩ : SliceRow) = true := by
    simp [sliceMatches, sqlEq]
  rw [List.find?_cons_of_pos _ hp]
  rfl

/-- For SEASON without force, the slice a load resolves is findable again in
the state the resolution leaves behind. -/
theorem upsert_slice_season_find (db : DB) (tid : Nat) (st : String) (s : String) :
    sliceFind (upsert_slice db tid st ("SEASON") (some s) false).1 tid st ("SEASON")
        (some s) =
      some (upsert_slice db tid st ("SEASON") (some s) false).2.1 := by
  unfold upsert_slice
  rw [if_pos ⟨rfl, rfl⟩]
  cases hf : sliceFind db tid st ("SEASON") (some s) with
  | some e =>
    simp only [hf]
    rw [sliceFind_update, hf]
  | none =>
    simp only [hf]
    exact sliceFind_insert_self db tid st ("SEASON") s _ hf
/-- When the SEASON search hits, the resolution updates in place: same slice
id, `is_new = false`, and the state is an in-place timestamp/description
update. -/
theorem upsert_slice_season_found {db : DB} {tid : Nat} {st : String} {pv : Option String}
    {e : Nat} (hf : sliceFind db tid st ("SEASON") pv = some e) :
    (upsert_slice db tid st ("SEASON") pv false).2.1 = e ∧
    (upsert_slice db tid st ("SEASON") pv false).2.2 = false ∧
    ∃ d, (upsert_slice db tid st ("SEASON") pv false).1 = sliceUpdate db e d := by
  unfold upsert_slice
  rw [if_pos ⟨rfl, rfl⟩]
  simp only [hf]
  exact ⟨trivial, trivial, _, rfl⟩

theorem sliceUpdate_slices_length (db : DB) (e : Nat) (d : String) :
    (sliceUpdate db e d).slices.length = db.slices.length := by
  show (db.slices.map _).length = db.slices.length
  rw [List.length_map]

/-- Re-running `load_file` for the same (tournament, stat kind, SEASON,
period value) batch with `force_new_season = false`: the second run resolves
the very slice the first run produced (updating it in place, `is_new =
false`, no slice row added) and leaves the player store, the id counter and
the statistics store exactly as the first run left them. -/
theorem load_file_season_replay (db : DB) (rows : List Row) (tid : Nat) (st : String)
    (pv : Option String) (year : Int) :
    (load_file (load_file db rows tid st ("SEASON") pv false year).1 rows tid st
        ("SEASON") pv false year).1.players =
      (load_file db rows tid st ("SEASON") pv false year).1.players ∧
    (load_file (load_file db rows tid st ("SEASON") pv false year).1 rows tid st
        ("SEASON") pv false year).1.next_player_id =
      (load_file db rows tid st ("SEASON") pv false year).1.next_player_id ∧
    (load_file (load_file db rows tid st ("SEASON") pv false year).1 rows tid st
        ("SEASON") pv false year).1.stats =
      (load_file db rows tid st ("SEASON") pv false year).1.stats ∧
    (load_file (load_file db rows tid st ("SEASON") pv false year).1 rows tid st
        ("SEASON") pv false year).2.slice_id =
      (load_file db rows tid st ("SEASON") pv false year).2.slice_id ∧
    (load_file (load_file db rows tid st ("SEASON") pv false year).1 rows tid st
        ("SEASON") pv false year).2.is_new_slice = false ∧
    (load_file (load_file db rows tid st ("SEASON") pv false year).1 rows tid st
        ("SEASON") pv false year).1.slices.length =
      (load_file db rows tid st ("SEASON") pv false year).1.slices.length := by
  obtain ⟨s1, hs1, hs1c⟩ : ∃ s,
      (if ("SEASON" : String) = "SEASON" ∧ pv = none
        then some (get_tournament_season db tid year) else pv) = some s ∧
      ∀ (z : DB), z.tournaments = db.tournaments →
        (if ("SEASON" : String) = "SEASON" ∧ pv = none
          then some (get_tournament_season z tid year) else pv) = some s := by
    cases pv with
    | none =>
      refine ⟨get_tournament_season db tid year, ?_, ?_⟩
      · rw [if_pos ⟨rfl, rfl⟩]
      · intro z hz
        rw [if_pos ⟨rfl, rfl⟩, get_tournament_season_congr hz]
    | some s0 =>
      refine ⟨s0, ?_, ?_⟩
      · rw [if_neg (fun h => Option.noConfusion h.2)]
      · intro z hz
        rw [if_neg (fun h => Option.noConfusion h.2)]
  have h1state : (load_file db rows tid st ("SEASON") pv false year).1 =
      (loadRows (upsert_slice db tid st ("SEASON") (some s1) false).1 rows tid
        (upsert_slice db tid st ("SEASON") (some s1) false).2.1 year).1 := by
    show (loadRows (upsert_slice db tid st ("SEASON")
        (if ("SEASON" : String) = "SEASON" ∧ pv = none
          then some (get_tournament_season db tid year) else pv) false).1 rows tid
      (upsert_slice db tid st ("SEASON")
        (if ("SEASON" : String) = "SEASON" ∧ pv = none
          then some (get_tournament_season db tid year) else pv) false).2.1 year).1 =
      (loadRows (upsert_slice db tid st ("SEASON") (some s1) false).1 rows tid
        (upsert_slice db tid st ("SEASON") (some s1) false).2.1 year).1
    rw [hs1]
  have h1slice : (load_file db rows tid st ("SEASON") pv false year).2.slice_id =
      (upsert_slice db tid st ("SEASON") (some s1) false).2.1 := by
    show (upsert_slice db tid st ("SEASON")
        (if ("SEASON" : String) = "SEASON" ∧ pv = none
          then some (get_tournament_season db tid year) else pv) false).2.1 =
      (upsert_slice db tid st ("SEASON") (some s1) false).2.1
    rw [hs1]
  set U1 := upsert_slice db tid st ("SEASON") (some s1) false with hU1def
  have hPF : playerFrame db U1.1 := by
    rw [hU1def]
    exact upsert_slice_playerFrame db tid st ("SEASON") (some s1) false
  set sid1 := U1.2.1 with hsid1def
  set A := rows.filterMap (fun row => rowAct db.positions row tid year) with hAdef
  have hd1 : (loadRows U1.1 rows tid sid1 year).1 = A.foldl (applyAct sid1) U1.1 := by
    rw [hAdef]
    exact loadRows_decomp U1.1 rows tid sid1 year db.positions hPF.2.2.2.1
  have hr1 : (load_file db rows tid st ("SEASON") pv false year).1 =
      A.foldl (applyAct sid1) U1.1 := h1state.trans hd1
  set Y := A.foldl (applyAct sid1) U1.1 with hYdef
  have hSF : sliceFrame U1.1 Y := by
    rw [hYdef]
    exact fold_applyAct_sliceFrame sid1 A U1.1
  have hytour : Y.tournaments = db.tournaments := hSF.2.1.trans hPF.2.2.2.2
  have hypos : Y.positions = db.positions := hSF.1.trans hPF.2.2.2.1
  have hyslices : Y.slices = U1.1.slices := hSF.2.2.1
  have hs2 := hs1c Y hytour
  have h2state : (load_file Y rows tid st ("SEASON") pv false year).1 =
      (loadRows (upsert_slice Y tid st ("SEASON") (some s1) false).1 rows tid
        (upsert_slice Y tid st ("SEASON") (some s1) false).2.1 year).1 := by
    show (loadRows (upsert_slice Y tid st ("SEASON")
        (if ("SEASON" : String) = "SEASON" ∧ pv = none
          then some (get_tournament_season Y tid year) else pv) false).1 rows tid
      (upsert_slice Y tid st ("SEASON")
        (if ("SEASON" : String) = "SEASON" ∧ pv = none
          then some (get_tournament_season Y tid year) else pv) false).2.1 year).1 =
      (loadRows (upsert_slice Y tid st ("SEASON") (some s1) false).1 rows tid
        (upsert_slice Y tid st ("SEASON") (some s1) false).2.1 year).1
    rw [hs2]
  have h2slice : (load_file Y rows tid st ("SEASON") pv false year).2.slice_id =
      (upsert_slice Y tid st ("SEASON") (some s1) false).2.1 := by
    show (upsert_slice Y tid st ("SEASON")
        (if ("SEASON" : String) = "SEASON" ∧ pv = none
          then some (get_tournament_season Y tid year) else pv) false).2.1 =
      (upsert_slice Y tid st ("SEASON") (some s1) false).2.1
    rw [hs2]
  have h2new : (load_file Y rows tid st ("SEASON") pv false year).2.is_new_slice =
      (upsert_slice Y tid st ("SEASON") (some s1) false).2.2 := by
    show (upsert_slice Y tid st ("SEASON")
        (if ("SEASON" : String) = "SEASON" ∧ pv = none
          then some (get_tournament_season Y tid year) else pv) false).2.2 =
      (upsert_slice Y tid st ("SEASON") (some s1) false).2.2
    rw [hs2]
  have hfind2 : sliceFind Y tid st ("SEASON") (some s1) = some sid1 := by
    rw [sliceFind_congr hyslices]
    rw [hsid1def, hU1def]
    exact upsert_slice_season_find db tid st s1
  obtain ⟨hU2sid, hU2new, d2, hU2st⟩ := upsert_slice_season_found hfind2
  have hP2 : (sliceUpdate Y sid1 d2).positions = db.positions := hypos
  have h2r : (load_file Y rows tid st ("SEASON") pv false year).1 =
      A.foldl (applyAct sid1) (sliceUpdate Y sid1 d2) := by
    rw [h2state, hU2st, hU2sid, hAdef]
    exact loadRows_decomp (sliceUpdate Y sid1 d2) rows tid sid1 year db.positions hP2
  have hupd_p : (sliceUpdate Y sid1 d2).players = Y.players := rfl
  have hupd_n : (sliceUpdate Y sid1 d2).next_player_id = Y.next_player_id := rfl
  have hupd_s : (sliceUpdate Y sid1 d2).stats = Y.stats := rfl
  have hcore2 := fold_core sid1 A hupd_p hupd_n hupd_s
  have hrep : (A.foldl (applyAct sid1) Y).players = Y.players ∧
      (A.foldl (applyAct sid1) Y).next_player_id = Y.next_player_id ∧
      (A.foldl (applyAct sid1) Y).stats = Y.stats := by
    rw [hYdef]
    exact fold_replay sid1 A U1.1
  have hSF2 : sliceFrame (sliceUpdate Y sid1 d2)
      (A.foldl (applyAct sid1) (sliceUpdate Y sid1 d2)) :=
    fold_applyAct_sliceFrame sid1 A (sliceUpdate Y sid1 d2)
  rw [hr1]
  refine ⟨?_, ?_, ?_, ?_, ?_, ?_⟩
  · rw [h2r, hcore2.1, hrep.1]
  · rw [h2r, hcore2.2.1, hrep.2.1]
  · rw [h2r, hcore2.2.2, hrep.2.2]
  · rw [h2slice, hU2sid, h1slice]
  · rw [h2new, hU2new]
  · rw [h2r, hSF2.2.2.1, sliceUpdate_slices_length]

/-- Writing a row's metrics twice for the same (player, slice) stores the
same state as writing them once: each upsert repeats an identical fact. -/
theorem writeMetrics_replay (d : DB) (row : Row) (pid sid : Nat) :
    (writeMetrics (writeMetrics d row pid sid).1 row pid sid).1 =
      (writeMetrics d row pid sid).1 := by
  simp only [writeMetrics_spec]
  rw [applySets_replay]

/-- C2: Ingestion is idempotent: re-running `load_file` on the same batch of
rows for the same (tournament, stat kind, SEASON, period value) with
`force_new_season = false` resolves the very slice the first run produced
(`is_new_slice = false`, slice count unchanged — no duplicate slice rows) and
leaves the stored player rows, the player-id counter and the stored
(player, slice, metric_code) → value facts exactly as after the first run;
and equally, running the `writeMetrics` loop twice with identical
(state, row, player_id, slice_id) yields the same stored state as running it
once. -/
theorem C2_idempotent (db : DB) (rows : List Row) (tid : Nat) (st : String)
    (pv : Option String) (year : Int) :
    ((load_file (load_file db rows tid st ("SEASON") pv false year).1 rows tid st
        ("SEASON") pv false year).1.players =
      (load_file db rows tid st ("SEASON") pv false year).1.players ∧
     (load_file (load_file db rows tid st ("SEASON") pv false year).1 rows tid st
        ("SEASON") pv false year).1.next_player_id =
      (load_file db rows tid st ("SEASON") pv false year).1.next_player_id ∧
     (load_file (load_file db rows tid st ("SEASON") pv false year).1 rows tid st
        ("SEASON") pv false year).1.stats =
      (load_file db rows tid st ("SEASON") pv false year).1.stats ∧
     (load_file (load_file db rows tid st ("SEASON") pv false year).1 rows tid st
        ("SEASON") pv false year).2.slice_id =
      (load_file db rows tid st ("SEASON") pv false year).2.slice_id ∧
     (load_file (load_file db rows tid st ("SEASON") pv false year).1 rows tid st
        ("SEASON") pv false year).2.is_new_slice = false ∧
     (load_file (load_file db rows tid st ("SEASON") pv false year).1 rows tid st
        ("SEASON") pv false year).1.slices.length =
      (load_file db rows tid st ("SEASON") pv false year).1.slices.length) ∧
    (∀ (d : DB) (row : Row) (pid sid : Nat),
      (writeMetrics (writeMetrics d row pid sid).1 row pid sid).1 =
        (writeMetrics d row pid sid).1) :=
  ⟨load_file_season_replay db rows tid st pv year,
   fun d row pid sid => writeMetrics_replay d row pid sid⟩

/-- C7: Batch atomicity: for every batch, load either commits exactly once at
the end — publishing the working state as the new durable store — or, when any
exception escapes the per-row handling, rolls the transaction back so that the
durable store is exactly as before the call, performs no commit, and
propagates a single batch-level error. -/
theorem C7_batch_atomicity (f : Faults) (fileData : Option (List Row)) (tid : Nat)
    (st pt : String) (pv : Option String) (force : Bool) (year : Int) (s : Sess) :
    match load_fileM f fileData tid st pt pv force year s with
    | .ok r => r.2.commits = s.commits + 1 ∧ r.2.committed = r.2.working
    | .error r => r.2.committed = s.committed ∧ r.2.commits = s.commits ∧
                  r.2.working = s.committed := by
  obtain ⟨hok, herr⟩ := load_file_body_spec f fileData tid st pt pv force year s
  unfold load_fileM
  cases hb : load_file_body f fileData tid st pt pv force year s with
  | ok r =>
    obtain ⟨res, s2⟩ := r
    exact hok res s2 hb
  | error r =>
    obtain ⟨e, s2⟩ := r
    obtain ⟨hfr, _⟩ := herr e s2 hb
    exact ⟨hfr.1, hfr.2, hfr.1⟩

/-- C10 (amended): any error surfacing from the batch is attributable to the
file read, the default-season query, the advisory rollover check, one of the
slice-resolution statements, or the final commit; per-row errors of any kind
(identity parsing, position lookup, player upsert, metric writes) are caught
by the per-row handler and never escape. -/
theorem C10_batch_error_sources (f : Faults) (fileData : Option (List Row)) (tid : Nat)
    (st pt : String) (pv : Option String) (force : Bool) (year : Int) (s : Sess)
    (e : PyErr) (h : errOf (load_fileM f fileData tid st pt pv force year s) = some e) :
    e = .fileError ∨ e = .dbError .seasonQ ∨ e = .dbError .rolloverQ ∨
    e = .dbError .sliceFindQ ∨ e = .dbError .sliceUpdateQ ∨
    e = .dbError .sliceInsertQ ∨ e = .dbError .commitOp := by
  obtain ⟨hok, herr⟩ := load_file_body_spec f fileData tid st pt pv force year s
  unfold load_fileM at h
  cases hb : load_file_body f fileData tid st pt pv force year s with
  | ok r =>
    simp only [hb, errOf] at h
    exact Option.noConfusion h
  | error r =>
    obtain ⟨e0, s2⟩ := r
    simp only [hb, errOf] at h
    have he := Option.some.inj h
    subst he
    exact (herr e0 s2 hb).2

/-- Witness for C10: with no database faults and an unreadable file, the load
fails with the file error, which the amended enumeration covers. -/
theorem C10_batch_error_sources_witness :
    errOf (load_fileM noFaults none 0 ("TOTAL") ("SEASON") (some ("2025")) false 2026 sess0)
        = some PyErr.fileError ∧
    (PyErr.fileError = .fileError ∨ PyErr.fileError = .dbError .seasonQ ∨
     PyErr.fileError = .dbError .rolloverQ ∨ PyErr.fileError = .dbError .sliceFindQ ∨
     PyErr.fileError = .dbError .sliceUpdateQ ∨ PyErr.fileError = .dbError .sliceInsertQ ∨
     PyErr.fileError = .dbError .commitOp) :=
  ⟨rfl, C10_batch_error_sources noFaults none 0 ("TOTAL") ("SEASON") (some ("2025"))
    false 2026 sess0 PyErr.fileError rfl⟩

/-- Counterexample to C10 as stated: with an oracle that faults only the
advisory season-rollover query — every one of the four operations the claim
lists (file read, default-season resolution, slice resolution, commit) being
fault-free — the batch still fails, with the error attributed to the rollover
check, an operation missing from the claim's enumeration. -/
theorem C10_counterexample :
    errOf (load_fileM rolloverOnlyFaults (some [rowIvanov, rowPetrov]) 0 ("TOTAL")
        ("SEASON") (some ("2025")) false 2026 sess0)
      = some (PyErr.dbError DbOp.rolloverQ) := by
  rfl

/-- C9: the season-rollover check is advisory and read-only: as a statement it
leaves the open transaction, the durable store and the commit counter
untouched whatever its outcome, and removing it from `load_file` changes
nothing about ingestion — the result and the final stored state coincide with
those of the check-free loader. -/
theorem C9_rollover_check_advisory (f : Faults) (tid : Nat) (st pt : String)
    (pv : Option String) (force : Bool) (s : Sess) (db : DB) (rows : List Row)
    (tid2 : Nat) (st2 pt2 : String) (pv2 : Option String) (force2 : Bool) (year : Int) :
    ((outSess (rolloverCheckM f tid st pt pv force s)).working = s.working ∧
     (outSess (rolloverCheckM f tid st pt pv force s)).committed = s.committed ∧
     (outSess (rolloverCheckM f tid st pt pv force s)).commits = s.commits) ∧
    load_file db rows tid2 st2 pt2 pv2 force2 year =
      load_file_no_advisory db rows tid2 st2 pt2 pv2 force2 year :=
  ⟨rolloverCheckM_readonly f tid st pt pv force s, rfl⟩

end DataLoader
